import Mathlib

/-!
# The LED face of `face.c`

A shallow embedding of `src/face.c` (ATmega48 firmware that multiplexes an 8x5
LED matrix, keeps a wall clock in the timer interrupt and picks a mouth
bitmap from the sampled loudness), followed by theorems about it.

Conventions of the embedding

* Every C object is a natural number; a store into a `uint8_t` or `uint16_t`
  object is reduced with `u8` or `u16` wherever the stored expression can leave
  the range of the object.
* All objects that the interrupt handler and `main` use are fields of one
  record `State`: the globals, the three output ports and the locals of
  `main` (which live as long as the program runs).  The globals
  `soft_prescaler`, `screen_mem`, `col_ptr`, `scroll_count` and `loudness` are
  never used by any function and are left out, as is the loop index `i`.
* `get_adc()` and `rand()` are inputs: `adc k` is the reading returned in
  pass `k` of the sampling loop, `rnd` is the result of the one call of `rand`
  a pass through the blink switch can make.
* The interrupt handler and the phases of the main loop are functions on
  `State`; an interrupt is taken before or after such a function, not in the
  middle of it.
* `loop_pass` is one pass through the loop body together with the interrupts
  taken during it, `run_loop` a sequence of such passes.  The sampling loop
  writes `sum` and `amplitude`, which the handler never reads, and stores
  `active_face` once at its end, so an interrupt taken while it runs acts like
  one taken just before it.
-/

namespace Face

/-! ## Constants -/

def MAX_FACES : Nat := 6
def MAX_SAMPLES : Nat := 8
def SCALE : Nat := 12
def DELTA : Nat := 12
def SUB_COUNT_MAX : Nat := 1953

def EYES_NONE : Nat := 0xFF
def EYES_CLOSED : Nat := 0x00
def EYES_LEFT : Nat := 0x14
def EYES_RIGHT : Nat := 0x05

def STATE_WAITING : Nat := 0
def STATE_CLOSED : Nat := 1

/-! ## Machine arithmetic -/

/-- Value kept by a store into a `uint8_t` object. -/
def u8 (x : Nat) : Nat := x % 256

/-- Value kept by a store into a `uint16_t` object. -/
def u16 (x : Nat) : Nat := x % 65536

/-- Subtraction of two `uint16_t` values in unsigned 16-bit arithmetic. -/
def sub16 (a b : Nat) : Nat := (a % 65536 + 65536 - b % 65536) % 65536

/-- Low byte of the C expression `~x`: `~x` is `-x - 1` as an `int`, and the
store into an 8-bit port keeps it modulo 256. -/
def bnot8 (x : Nat) : Nat := Int.toNat ((-(x : Int) - 1) % 256)

/-! ## Program state -/

/-- Initial contents of the table `faces[MAX_FACES][8]`. -/
def faces_init : List (List Nat) :=
  [ [0x00, 0x0A, 0x00, 0x0E, 0x00, 0x00, 0x00, 0x00],
    [0x00, 0x0A, 0x00, 0x0E, 0x0E, 0x00, 0x00, 0x00],
    [0x00, 0x0A, 0x00, 0x0E, 0x11, 0x0E, 0x00, 0x00],
    [0x00, 0x0A, 0x00, 0x0E, 0x11, 0x11, 0x0E, 0x00],
    [0x00, 0x0A, 0x00, 0x0E, 0x11, 0x11, 0x11, 0x0E],
    [0x00, 0x1B, 0x00, 0x0E, 0x11, 0x11, 0x11, 0x0E] ]

/-- Objects of the program: globals, output ports, locals of `main`. -/
structure State where
  active_col : Nat
  sub_count : Nat
  counter : Nat
  seconds : Nat
  minutes : Nat
  hours : Nat
  active_eyes : Nat
  active_face : Nat
  faces : List (List Nat)
  PORTB : Nat
  PORTC : Nat
  PORTD : Nat
  sum : Nat
  amplitude : Nat
  blink_state : Nat
  blink_wakeup : Nat
  bored_count : Nat
  deriving DecidableEq

/-- State when `main` reaches `while (1)`: static objects hold their
initialisers (zero where there is none), the port registers hold their reset
value 0, and the locals of `main` hold the values of their declarations. -/
def power_on : State :=
  { active_col := 0, sub_count := 0, counter := 0,
    seconds := 0, minutes := 0, hours := 0,
    active_eyes := EYES_NONE, active_face := 0, faces := faces_init,
    PORTB := 0, PORTC := 0, PORTD := 0,
    sum := 0, amplitude := 0,
    blink_state := STATE_CLOSED, blink_wakeup := 0, bored_count := 0 }

/-- Read of `faces[f][c]`.  A read outside the table is undefined in C; the
embedding gives it the value 0. -/
def faces_at (tbl : List (List Nat)) (f c : Nat) : Nat := (tbl.getD f []).getD c 0

/-! ## `clock_tick` -/

def clock_tick (s : State) : State :=
  let s := { s with seconds := u8 (s.seconds + 1) }
  if s.seconds = 60 then
    let s := { s with seconds := 0, minutes := u8 (s.minutes + 1) }
    if s.minutes = 60 then
      let s := { s with minutes := 0, hours := u8 (s.hours + 1) }
      if s.hours = 24 then { s with hours := 0 } else s
    else s
  else s

/-! ## `display_active_col` -/

def display_active_col (s : State) : State :=
  -- shut down all rows
  let s := { s with PORTC := s.PORTC ||| 0x1f }
  -- shut down active column
  let s := if s.active_col > 5 then { s with PORTD := s.PORTD &&& bnot8 0x0c }
           else { s with PORTB := s.PORTB &&& bnot8 (1 <<< s.active_col) }
  -- next column
  let s := { s with active_col := (s.active_col + 1) % 8 }
  -- output all rows; if blink then overwrite the eyes
  let s := if s.active_col = 1 ∧ s.active_eyes ≠ 0xFF then
             { s with PORTC := bnot8 s.active_eyes }
           else
             { s with PORTC := bnot8 (faces_at s.faces s.active_face s.active_col) }
  -- activate column
  if s.active_col = 6 then { s with PORTD := s.PORTD ||| 0x04 }
  else if s.active_col = 7 then { s with PORTD := s.PORTD ||| 0x08 }
  else { s with PORTB := s.PORTB ||| (1 <<< s.active_col) }

/-! ## The timer 0 overflow handler -/

/-- Body of `SIGNAL(TIMER0_OVF_vect)`.  The second component is the number of
calls of `clock_tick` the invocation makes. -/
def TIMER0_OVF_step (s : State) : State × Nat :=
  let s := { s with counter := u16 (s.counter + 1) }
  let s := if s.counter % 2 = 0 then display_active_col s else s
  -- count fractions of a second
  let s := { s with sub_count := u16 (s.sub_count + 1) }
  if s.sub_count = SUB_COUNT_MAX then
    ({ clock_tick s with sub_count := 0 }, 1)
  else (s, 0)

/-- State after one invocation of the handler. -/
def TIMER0_OVF_vect (s : State) : State := (TIMER0_OVF_step s).1

/-- State after `n` invocations of the handler, and the number of calls of
`clock_tick` made by them. -/
def TIMER0_OVF_run : Nat → State → State × Nat
  | 0, s => (s, 0)
  | n + 1, s =>
    let r := TIMER0_OVF_run n s
    let t := TIMER0_OVF_step r.1
    (t.1, r.2 + t.2)

/-- Time of day in seconds held by the clock. -/
def time_of_day (s : State) : Nat := s.hours * 3600 + s.minutes * 60 + s.seconds

/-! ## The main loop -/

/-- Start of the loop body: count how bored we are. -/
def bored_step (s : State) : State :=
  if s.active_face = 0 then { s with bored_count := u16 (s.bored_count + 1) }
  else { s with bored_count := 0 }

/-- The `switch (blink_state)` of the loop body; `rnd` is the value `rand()`
returns if it is called. -/
def blink_step (rnd : Nat) (s : State) : State :=
  if s.blink_state = STATE_WAITING then
    if s.seconds = s.blink_wakeup then
      let s := { s with blink_state := STATE_CLOSED }
      if s.bored_count > 2000 then
        let s := if rnd % 2 = 0 then { s with active_eyes := EYES_LEFT }
                 else { s with active_eyes := EYES_RIGHT }
        { s with blink_wakeup := u16 (s.counter + 2000) }
      else
        let s := { s with active_eyes := EYES_CLOSED }
        { s with blink_wakeup := u16 (s.counter + 200) }
    else s
  else if s.blink_state = STATE_CLOSED then
    if s.counter ≥ s.blink_wakeup then
      let s := { s with blink_state := STATE_WAITING }
      let s := { s with active_eyes := EYES_NONE }
      { s with blink_wakeup := rnd % 30 }
    else s
  else s

/-- Value left in `amplitude` by the `if` chain of the sampling loop when
`get_adc()` returned `r`. -/
def rectify (r : Nat) : Nat :=
  if r > 512 + DELTA then sub16 r (512 + DELTA)
  else if r < 512 - DELTA then sub16 (sub16 512 r) DELTA
  else 0

/-- One pass of the sampling loop with reading `r`. -/
def sample_once (r : Nat) (s : State) : State :=
  let s := { s with amplitude := rectify r }
  { s with sum := u16 (s.sum + s.amplitude) }

/-- The first `k` passes of the sampling loop; pass `i` reads `adc i`. -/
def sample_loop (adc : Nat → Nat) : Nat → State → State
  | 0, s => s
  | k + 1, s => sample_once (adc k) (sample_loop adc k s)

/-- The sampling loop and the selection of the face that follows it. -/
def sample_step (adc : Nat → Nat) (s : State) : State :=
  let s := sample_loop adc MAX_SAMPLES s
  let s := { s with sum := s.sum / MAX_SAMPLES }
  let s := { s with sum := s.sum / SCALE }
  { s with active_face := if s.sum ≥ MAX_FACES then MAX_FACES - 1 else s.sum }

/-- One pass through the body of `while (1)`. -/
def main_loop_body (adc : Nat → Nat) (rnd : Nat) (s : State) : State :=
  sample_step adc (blink_step rnd (bored_step s))

/-- Sum of the rectified deviations of the first `k` readings. -/
def deviation_sum (adc : Nat → Nat) : Nat → Nat
  | 0 => 0
  | k + 1 => deviation_sum adc k + rectify (adc k)

/-- States the program reaches from power-on when every reading of the
converter is a 10-bit value.  The phases of the loop body and the interrupt
handler may follow each other in any order, which covers every point at which
an interrupt can be taken between two phases. -/
inductive Reachable : State → Prop
  | start : Reachable power_on
  | interrupt (s : State) : Reachable s → Reachable (TIMER0_OVF_vect s)
  | bored (s : State) : Reachable s → Reachable (bored_step s)
  | blink (rnd : Nat) (s : State) : Reachable s → Reachable (blink_step rnd s)
  | sample (adc : Nat → Nat) (s : State) :
      Reachable s → (∀ i, i < MAX_SAMPLES → adc i < 1024) → Reachable (sample_step adc s)

/-- States the program reaches from power-on for arbitrary 16-bit readings of
the converter; as for `Reachable`, the phases of the loop body and the
interrupt handler may follow each other in any order. -/
inductive Reachable16 : State → Prop
  | start : Reachable16 power_on
  | interrupt (s : State) : Reachable16 s → Reachable16 (TIMER0_OVF_vect s)
  | bored (s : State) : Reachable16 s → Reachable16 (bored_step s)
  | blink (rnd : Nat) (s : State) : Reachable16 s → Reachable16 (blink_step rnd s)
  | sample (adc : Nat → Nat) (s : State) :
      Reachable16 s → (∀ i, i < MAX_SAMPLES → adc i < 65536) →
        Reachable16 (sample_step adc s)

/-- Body of `SIGNAL(TIMER0_OVF_vect)` once more; here the second component is
the number of calls of `display_active_col` the invocation makes. -/
def TIMER0_OVF_cols (s : State) : State × Nat :=
  let s := { s with counter := u16 (s.counter + 1) }
  let r := if s.counter % 2 = 0 then (display_active_col s, 1) else (s, 0)
  -- count fractions of a second
  let s := { r.1 with sub_count := u16 (r.1.sub_count + 1) }
  if s.sub_count = SUB_COUNT_MAX then
    ({ clock_tick s with sub_count := 0 }, r.2)
  else (s, r.2)

/-- State after `n` invocations of the handler, and the number of calls of
`display_active_col` made by them. -/
def TIMER0_OVF_cols_run : Nat → State → State × Nat
  | 0, s => (s, 0)
  | n + 1, s =>
    let r := TIMER0_OVF_cols_run n s
    let t := TIMER0_OVF_cols r.1
    (t.1, r.2 + t.2)

/-- What one pass through the body of `while (1)` takes from outside: the
readings of the converter, the result of `rand()`, and the numbers of timer
interrupts taken after the boredom count, after the blink switch (up to the
store into `active_face`) and after that store (up to the end of
`_delay_ms(40)`). -/
structure Pass where
  adc : Nat → Nat
  rnd : Nat
  irq_bored : Nat
  irq_blink : Nat
  irq_sample : Nat

/-- One pass through the body of `while (1)` with the interrupts taken during
it. -/
def loop_pass (p : Pass) (s : State) : State :=
  TIMER0_OVF_vect^[p.irq_sample]
    (sample_step p.adc
      (TIMER0_OVF_vect^[p.irq_blink]
        (blink_step p.rnd
          (TIMER0_OVF_vect^[p.irq_bored] (bored_step s)))))

/-- State in which pass `p`, begun in state `s`, enters its sampling loop. -/
def before_sampling (p : Pass) (s : State) : State :=
  TIMER0_OVF_vect^[p.irq_blink]
    (blink_step p.rnd
      (TIMER0_OVF_vect^[p.irq_bored] (bored_step s)))

/-- State at the start of pass `n` of the main loop (passes are numbered from
0) when pass `k` is run with `inp k` and the loop is entered in state `s`. -/
def run_loop (inp : Nat → Pass) : Nat → State → State
  | 0, s => s
  | n + 1, s => loop_pass (inp n) (run_loop inp n s)

/-- Agreement of the blink machine and the eyes overlay: no overlay while
waiting, one of the three overlays while closed. -/
def blink_eyes_agree (s : State) : Prop :=
  (s.blink_state = STATE_WAITING → s.active_eyes = EYES_NONE) ∧
  (s.blink_state = STATE_CLOSED →
    s.active_eyes = EYES_CLOSED ∨ s.active_eyes = EYES_LEFT ∨ s.active_eyes = EYES_RIGHT)

instance (s : State) : Decidable (blink_eyes_agree s) := by
  unfold blink_eyes_agree
  infer_instance

/-- Level of column line `k` of the matrix: lines 0..5 are PB0..PB5, line 6 is
PD2 and line 7 is PD3. -/
def column_line (s : State) (k : Nat) : Bool :=
  if k < 6 then s.PORTB.testBit k
  else if k = 6 then s.PORTD.testBit 2
  else if k = 7 then s.PORTD.testBit 3
  else false

/-! ## Frame lemmas -/

theorem display_active_col_active_col (s : State) :
    (display_active_col s).active_col = (s.active_col + 1) % 8 := by
  unfold display_active_col
  simp only []
  split_ifs <;> rfl

theorem display_active_col_sub_count (s : State) :
    (display_active_col s).sub_count = s.sub_count := by
  unfold display_active_col
  simp only []
  split_ifs <;> rfl

theorem TIMER0_OVF_step_sub_count (s : State) :
    (TIMER0_OVF_step s).1.sub_count =
        (if u16 (s.sub_count + 1) = SUB_COUNT_MAX then 0 else u16 (s.sub_count + 1)) ∧
      (TIMER0_OVF_step s).2 =
        (if u16 (s.sub_count + 1) = SUB_COUNT_MAX then 1 else 0) := by
  unfold TIMER0_OVF_step
  simp only []
  split_ifs <;> simp_all [display_active_col_sub_count]

/-- The state component of `TIMER0_OVF_run` is the handler applied `n` times. -/
theorem TIMER0_OVF_run_fst (n : Nat) (s : State) :
    (TIMER0_OVF_run n s).1 = TIMER0_OVF_vect^[n] s := by
  induction n with
  | zero => rfl
  | succ k ih =>
    rw [Function.iterate_succ_apply', ← ih]
    rfl

theorem display_active_col_iterate (s : State) (n : Nat) :
    (display_active_col^[n + 1] s).active_col = (s.active_col + (n + 1)) % 8 := by
  induction n with
  | zero => simpa using display_active_col_active_col s
  | succ k ih =>
    rw [Function.iterate_succ_apply', display_active_col_active_col, ih]
    omega

/-! ## Column scan -/

/-- C1. Every call of `display_active_col` replaces `active_col` by
`(active_col + 1) % 8`; from power-on the value after `n` calls is `n % 8`;
after `n + 1` calls from any state it is `(active_col + n + 1) % 8`, so it is
below 8 after every call whatever it was before, and two of the calls leave
the same column exactly when their numbers agree modulo 8 (strict cyclic
order, no skip, no repeat, 7 wraps to 0). -/
theorem column_cycle :
    (∀ s : State, (display_active_col s).active_col = (s.active_col + 1) % 8) ∧
    (∀ n : Nat, (display_active_col^[n] power_on).active_col = n % 8) ∧
    (∀ (s : State) (n : Nat),
      (display_active_col^[n + 1] s).active_col = (s.active_col + (n + 1)) % 8) ∧
    (∀ s : State, (display_active_col s).active_col < 8) ∧
    (∀ s : State, s.active_col = 7 → (display_active_col s).active_col = 0) ∧
    (∀ (s : State) (i j : Nat),
      (display_active_col^[i + 1] s).active_col = (display_active_col^[j + 1] s).active_col
        ↔ i % 8 = j % 8) := by
  refine ⟨display_active_col_active_col, ?_, display_active_col_iterate, ?_, ?_, ?_⟩
  · intro n
    cases n with
    | zero => rfl
    | succ k =>
      rw [display_active_col_iterate]
      show (0 + (k + 1)) % 8 = (k + 1) % 8
      rw [Nat.zero_add]
  · intro s
    rw [display_active_col_active_col]
    omega
  · intro s h
    rw [display_active_col_active_col, h]
  · intro s i j
    rw [display_active_col_iterate, display_active_col_iterate]
    omega

/-- Instance of `column_cycle`: the wrap from column 7, and eight calls from
power-on. -/
theorem column_cycle_witness :
    (display_active_col { power_on with active_col := 7 }).active_col = 0 ∧
    (display_active_col^[8] power_on).active_col = 0 :=
  ⟨column_cycle.2.2.2.2.1 { power_on with active_col := 7 } rfl, column_cycle.2.1 8⟩

/-! ## Clock -/

/-- C2. Starting with `sub_count = 0`, after `n` invocations of the timer
handler `clock_tick` has been called `n / 1953` times and `sub_count` is
`n % 1953`, hence below `SUB_COUNT_MAX`; invocation `n + 1` calls `clock_tick`
(once) exactly when `n + 1` is a multiple of 1953, and `sub_count` is 0 after
it. -/
theorem sub_second_rollover (s : State) (h : s.sub_count = 0) (n : Nat) :
    (TIMER0_OVF_run n s).2 = n / 1953 ∧
    (TIMER0_OVF_run n s).1.sub_count = n % 1953 ∧
    (TIMER0_OVF_run n s).1.sub_count < SUB_COUNT_MAX ∧
    (TIMER0_OVF_step (TIMER0_OVF_run n s).1).2 = (if (n + 1) % 1953 = 0 then 1 else 0) ∧
    ((n + 1) % 1953 = 0 → (TIMER0_OVF_step (TIMER0_OVF_run n s).1).1.sub_count = 0) := by
  have key : ∀ m : Nat, (TIMER0_OVF_run m s).2 = m / 1953 ∧
      (TIMER0_OVF_run m s).1.sub_count = m % 1953 := by
    intro m
    induction m with
    | zero => exact ⟨rfl, h⟩
    | succ k ih =>
      obtain ⟨ih1, ih2⟩ := ih
      have hs := TIMER0_OVF_step_sub_count (TIMER0_OVF_run k s).1
      rw [ih2] at hs
      simp only [TIMER0_OVF_run, ih1, hs.1, hs.2, u16, SUB_COUNT_MAX]
      constructor
      · split_ifs <;> omega
      · split_ifs <;> omega
  obtain ⟨k1, k2⟩ := key n
  have hs := TIMER0_OVF_step_sub_count (TIMER0_OVF_run n s).1
  rw [k2] at hs
  simp only [u16, SUB_COUNT_MAX] at hs
  refine ⟨k1, k2, ?_, ?_, ?_⟩
  · rw [k2, SUB_COUNT_MAX]
    omega
  · rw [hs.2]
    split_ifs <;> omega
  · intro _
    rw [hs.1]
    split_ifs <;> omega

/-- Instance of `sub_second_rollover`: 1953 invocations from power-on. -/
theorem sub_second_rollover_witness :
    power_on.sub_count = 0 ∧
    (TIMER0_OVF_run 1953 power_on).2 = 1 ∧
    (TIMER0_OVF_run 1953 power_on).1.sub_count = 0 :=
  ⟨rfl, (sub_second_rollover power_on rfl 1953).1, (sub_second_rollover power_on rfl 1953).2.1⟩

/-- C3. With `seconds < 60`, `minutes < 60` and `hours < 24`, `clock_tick`
keeps the three bounds and advances the time of day by one second modulo
86400. -/
theorem clock_cascade (s : State) (hs : s.seconds < 60) (hm : s.minutes < 60)
    (hh : s.hours < 24) :
    (clock_tick s).seconds < 60 ∧ (clock_tick s).minutes < 60 ∧ (clock_tick s).hours < 24 ∧
    time_of_day (clock_tick s) = (time_of_day s + 1) % 86400 := by
  unfold clock_tick time_of_day
  simp only [u8]
  split_ifs <;> simp only [] <;> omega

/-- Instance of `clock_cascade`: 23:59:59 rolls over to 00:00:00. -/
theorem clock_cascade_witness :
    time_of_day (clock_tick { power_on with seconds := 59, minutes := 59, hours := 23 }) = 0 :=
  (clock_cascade { power_on with seconds := 59, minutes := 59, hours := 23 }
    (by decide) (by decide) (by decide)).2.2.2

/-! ## Sampling -/

theorem display_active_col_sum (s : State) : (display_active_col s).sum = s.sum := by
  unfold display_active_col
  simp only []
  split_ifs <;> rfl

theorem clock_tick_sum (s : State) : (clock_tick s).sum = s.sum := by
  unfold clock_tick
  simp only []
  split_ifs <;> rfl

theorem TIMER0_OVF_vect_sum (s : State) : (TIMER0_OVF_vect s).sum = s.sum := by
  unfold TIMER0_OVF_vect TIMER0_OVF_step
  simp only []
  split_ifs <;> simp [display_active_col_sum, clock_tick_sum]

theorem bored_step_sum (s : State) : (bored_step s).sum = s.sum := by
  unfold bored_step
  split_ifs <;> rfl

theorem blink_step_sum (rnd : Nat) (s : State) : (blink_step rnd s).sum = s.sum := by
  unfold blink_step
  simp only []
  split_ifs <;> rfl

theorem rectify_le (r : Nat) (h : r < 1024) : rectify r ≤ 500 := by
  unfold rectify sub16 DELTA
  split_ifs <;> omega

theorem deviation_sum_le (adc : Nat → Nat) (k : Nat) (h : ∀ i, i < k → adc i < 1024) :
    deviation_sum adc k ≤ 500 * k := by
  induction k with
  | zero => simp [deviation_sum]
  | succ m ih =>
    have h1 := ih (fun i hi => h i (Nat.lt_succ_of_lt hi))
    have h2 := rectify_le (adc m) (h m (Nat.lt_succ_self m))
    simp only [deviation_sum]
    omega

theorem deviation_sum_silence (adc : Nat → Nat) (k : Nat) (h : ∀ i, i < k → adc i = 512) :
    deviation_sum adc k = 0 := by
  induction k with
  | zero => rfl
  | succ m ih =>
    rw [deviation_sum, ih (fun i hi => h i (Nat.lt_succ_of_lt hi)), h m (Nat.lt_succ_self m)]
    rfl

/-- The accumulator after at least one pass of the sampling loop. -/
theorem sample_loop_sum (adc : Nat → Nat) (k : Nat) (s : State) :
    (sample_loop adc (k + 1) s).sum = (s.sum + deviation_sum adc (k + 1)) % 65536 := by
  induction k with
  | zero => simp [sample_loop, sample_once, deviation_sum, u16]
  | succ m ih =>
    rw [sample_loop, sample_once]
    simp only [u16]
    rw [ih]
    simp only [deviation_sum]
    omega

/-- The face selected by the sampling phase, in terms of the accumulator it
starts with and the deviations of its readings. -/
theorem sample_step_active_face (adc : Nat → Nat) (s : State) :
    (sample_step adc s).active_face =
      min (MAX_FACES - 1)
        ((s.sum + deviation_sum adc MAX_SAMPLES) % 65536 / MAX_SAMPLES / SCALE) := by
  have h := sample_loop_sum adc 7 s
  simp only [Nat.reduceAdd] at h
  unfold sample_step
  simp only [MAX_SAMPLES, h, MAX_FACES, SCALE]
  split_ifs <;> omega

/-- The accumulator left behind by the sampling phase. -/
theorem sample_step_sum (adc : Nat → Nat) (s : State) :
    (sample_step adc s).sum =
      (s.sum + deviation_sum adc MAX_SAMPLES) % 65536 / MAX_SAMPLES / SCALE := by
  have h := sample_loop_sum adc 7 s
  simp only [Nat.reduceAdd] at h
  unfold sample_step
  simp only [MAX_SAMPLES, h]

/-- With 10-bit readings the accumulator never holds more than 42 between two
phases. -/
theorem Reachable_sum_le (s : State) (h : Reachable s) : s.sum ≤ 42 := by
  induction h with
  | start => decide
  | interrupt s _ ih => rw [TIMER0_OVF_vect_sum]; exact ih
  | bored s _ ih => rw [bored_step_sum]; exact ih
  | blink rnd s _ ih => rw [blink_step_sum]; exact ih
  | sample adc s _ hadc ih =>
    rw [sample_step_sum]
    have := deviation_sum_le adc MAX_SAMPLES hadc
    simp only [MAX_SAMPLES, SCALE] at *
    omega

/-- C4. In a state reached from power-on with 10-bit readings, a pass through
the loop body whose 8 readings are all 512 accumulates deviations that sum to
0 (the sampling loop leaves `sum` as it found it) and ends with
`active_face = 0`. -/
theorem silence_selects_face_zero (s : State) (hs : Reachable s) (adc : Nat → Nat) (rnd : Nat)
    (h : ∀ i, i < MAX_SAMPLES → adc i = 512) :
    deviation_sum adc MAX_SAMPLES = 0 ∧
    (sample_loop adc MAX_SAMPLES (blink_step rnd (bored_step s))).sum = s.sum ∧
    (main_loop_body adc rnd s).active_face = 0 := by
  have hd := deviation_sum_silence adc MAX_SAMPLES h
  have hle := Reachable_sum_le s hs
  have hl := sample_loop_sum adc 7 (blink_step rnd (bored_step s))
  simp only [Nat.reduceAdd] at hl
  refine ⟨hd, ?_, ?_⟩
  · simp only [MAX_SAMPLES] at hd ⊢
    rw [hl, hd, blink_step_sum, bored_step_sum]
    omega
  · unfold main_loop_body
    rw [sample_step_active_face, hd, blink_step_sum, bored_step_sum]
    simp only [MAX_SAMPLES, SCALE, MAX_FACES]
    omega

/-- Instance of `silence_selects_face_zero`: the first pass after power-on. -/
theorem silence_selects_face_zero_witness :
    deviation_sum (fun _ => 512) MAX_SAMPLES = 0 ∧
    (sample_loop (fun _ => 512) MAX_SAMPLES (blink_step 0 (bored_step power_on))).sum
      = power_on.sum ∧
    (main_loop_body (fun _ => 512) 0 power_on).active_face = 0 :=
  silence_selects_face_zero power_on Reachable.start (fun _ => 512) 0 (fun _ _ => rfl)

/-- C5. In a state reached from power-on with 10-bit readings, a pass through
the loop body with 10-bit readings whose deviations have an integer average
of at least `SCALE * (MAX_FACES - 1)` ends with `active_face = MAX_FACES - 1`. -/
theorem saturation (s : State) (hs : Reachable s) (adc : Nat → Nat) (rnd : Nat)
    (h10 : ∀ i, i < MAX_SAMPLES → adc i < 1024)
    (havg : SCALE * (MAX_FACES - 1) ≤ deviation_sum adc MAX_SAMPLES / MAX_SAMPLES) :
    (main_loop_body adc rnd s).active_face = MAX_FACES - 1 := by
  have hle := Reachable_sum_le s hs
  have hd := deviation_sum_le adc MAX_SAMPLES h10
  unfold main_loop_body
  rw [sample_step_active_face, blink_step_sum, bored_step_sum]
  simp only [MAX_SAMPLES, SCALE, MAX_FACES] at *
  omega

/-- Instance of `saturation`: eight readings of 1023 after power-on. -/
theorem saturation_witness :
    (main_loop_body (fun _ => 1023) 0 power_on).active_face = MAX_FACES - 1 :=
  saturation power_on Reachable.start (fun _ => 1023) 0 (fun _ _ => by norm_num) (by decide)

/-- C6. The accumulator is not cleared between passes: after a first pass
with eight readings of 1023 it holds 41, and a second pass with eight
readings of 532 (deviation 8 each, so `min 5 ((64 / 8) / 12) = 0`) ends with
`active_face = 1`, while the same readings in the first pass after power-on
give 0. -/
theorem face_index_keeps_leftover :
    (main_loop_body (fun _ => 1023) 0 power_on).sum = 41 ∧
    (main_loop_body (fun _ => 532) 0 (main_loop_body (fun _ => 1023) 0 power_on)).active_face
      = 1 ∧
    min (MAX_FACES - 1) (deviation_sum (fun _ => 532) MAX_SAMPLES / MAX_SAMPLES / SCALE) = 0 ∧
    (main_loop_body (fun _ => 532) 0 power_on).active_face = 0 := by
  decide

/-- C7. For a 10-bit reading `r` the rectified deviation is 0 exactly when
`512 - DELTA ≤ r ≤ 512 + DELTA`, and strictly positive outside this
interval. -/
theorem dead_zone (r : Nat) (h : r < 1024) :
    (rectify r = 0 ↔ 512 - DELTA ≤ r ∧ r ≤ 512 + DELTA) ∧
    (¬ (512 - DELTA ≤ r ∧ r ≤ 512 + DELTA) → 0 < rectify r) := by
  unfold rectify sub16 DELTA
  split_ifs <;> omega

/-- Instance of `dead_zone`: the two ends of the interval and their
neighbours. -/
theorem dead_zone_witness :
    rectify 500 = 0 ∧ rectify 524 = 0 ∧ 0 < rectify 499 ∧ 0 < rectify 525 :=
  ⟨(dead_zone 500 (by decide)).1.2 (by decide), (dead_zone 524 (by decide)).1.2 (by decide),
   (dead_zone 499 (by decide)).2 (by decide), (dead_zone 525 (by decide)).2 (by decide)⟩

/-! ## Blinking -/

theorem blink_closed (rnd : Nat) (s : State) (hc : s.blink_state = STATE_CLOSED) :
    blink_step rnd s =
      (if s.counter ≥ s.blink_wakeup then
        { s with blink_state := STATE_WAITING, active_eyes := EYES_NONE,
                 blink_wakeup := rnd % 30 }
       else s) := by
  have hne : ¬ s.blink_state = STATE_WAITING := by
    rw [hc]
    decide
  unfold blink_step
  rw [if_neg hne, if_pos hc]

theorem blink_waiting (rnd : Nat) (s : State) (hw : s.blink_state = STATE_WAITING) :
    blink_step rnd s =
      (if s.seconds = s.blink_wakeup then
        (if s.bored_count > 2000 then
          { s with blink_state := STATE_CLOSED,
                   active_eyes := if rnd % 2 = 0 then EYES_LEFT else EYES_RIGHT,
                   blink_wakeup := (s.counter + 2000) % 65536 }
         else
          { s with blink_state := STATE_CLOSED, active_eyes := EYES_CLOSED,
                   blink_wakeup := (s.counter + 200) % 65536 })
       else s) := by
  unfold blink_step
  rw [if_pos hw]
  by_cases h : s.seconds = s.blink_wakeup
  · rw [if_pos h, if_pos h]
    by_cases hb : s.bored_count > 2000
    · rw [if_pos hb]
      simp only []
      rw [if_pos hb]
      by_cases hr : rnd % 2 = 0
      · rw [if_pos hr, if_pos hr]
        rfl
      · rw [if_neg hr, if_neg hr]
        rfl
    · rw [if_neg hb]
      simp only []
      rw [if_neg hb]
      rfl
  · rw [if_neg h, if_neg h]

/-- C8. In `STATE_CLOSED` the blink step moves to `STATE_WAITING`, sets
`active_eyes` to `EYES_NONE` and `blink_wakeup` to `rnd % 30` (at most 29)
exactly when `counter >= blink_wakeup`, and otherwise changes nothing; it does
so in particular when `blink_wakeup` and `counter` are both
`(c + 200) % 2^16`, and `seconds` has no influence on the step. -/
theorem blink_ends_on_time (rnd : Nat) (s : State) (hst : s.blink_state = STATE_CLOSED) :
    (∀ c : Nat, c < 65536 → s.blink_wakeup = (c + 200) % 65536 →
      s.counter = (c + 200) % 65536 →
        (blink_step rnd s).blink_state = STATE_WAITING ∧
        (blink_step rnd s).active_eyes = EYES_NONE ∧
        (blink_step rnd s).blink_wakeup = rnd % 30 ∧
        (blink_step rnd s).blink_wakeup ≤ 29) ∧
    (s.counter ≥ s.blink_wakeup →
      blink_step rnd s =
        { s with blink_state := STATE_WAITING, active_eyes := EYES_NONE,
                 blink_wakeup := rnd % 30 }) ∧
    (¬ s.counter ≥ s.blink_wakeup → blink_step rnd s = s) ∧
    ((blink_step rnd s).blink_state = STATE_WAITING ↔ s.counter ≥ s.blink_wakeup) ∧
    (∀ sec : Nat,
      blink_step rnd { s with seconds := sec } = { blink_step rnd s with seconds := sec }) := by
  have hb := blink_closed rnd s hst
  have hne : ¬ STATE_CLOSED = STATE_WAITING := by decide
  refine ⟨?_, ?_, ?_, ?_, ?_⟩
  · intro c _ hw hcnt
    have hge : s.counter ≥ s.blink_wakeup := by rw [hw, hcnt]
    rw [hb, if_pos hge]
    refine ⟨rfl, rfl, rfl, ?_⟩
    show rnd % 30 ≤ 29
    omega
  · intro hge
    rw [hb, if_pos hge]
  · intro hlt
    rw [hb, if_neg hlt]
  · constructor
    · intro h
      by_contra hlt
      rw [hb, if_neg hlt, hst] at h
      exact hne h
    · intro hge
      rw [hb, if_pos hge]
  · intro sec
    rw [blink_closed rnd { s with seconds := sec } hst, hb]
    by_cases hge : s.counter ≥ s.blink_wakeup
    · rw [if_pos hge, if_pos hge]
    · rw [if_neg hge, if_neg hge]

/-- Instance of `blink_ends_on_time`: a blink started at `counter = 65400`,
whose wake-up time wraps to 64, stepped at `counter = 64`. -/
theorem blink_ends_on_time_witness :
    (blink_step 47 { power_on with blink_wakeup := 64, counter := 64, seconds := 33,
                                   active_eyes := EYES_CLOSED }).blink_state = STATE_WAITING ∧
    (blink_step 47 { power_on with blink_wakeup := 64, counter := 64, seconds := 33,
                                   active_eyes := EYES_CLOSED }).active_eyes = EYES_NONE ∧
    (blink_step 47 { power_on with blink_wakeup := 64, counter := 64, seconds := 33,
                                   active_eyes := EYES_CLOSED }).blink_wakeup = 17 :=
  have h := (blink_ends_on_time 47
    { power_on with blink_wakeup := 64, counter := 64, seconds := 33,
                    active_eyes := EYES_CLOSED } rfl).1 65400 (by decide) rfl rfl
  ⟨h.1, h.2.1, h.2.2.1⟩

/-- C9. In `STATE_WAITING` the blink step changes `blink_state` exactly when
`seconds == blink_wakeup`, and the new state is then `STATE_CLOSED`; with
`bored_count > 2000` the eyes become `EYES_LEFT` (even `rnd`) or `EYES_RIGHT`
(odd `rnd`), never `EYES_CLOSED`, and `blink_wakeup` becomes
`(counter + 2000) % 2^16`; with `bored_count <= 2000` the eyes become
`EYES_CLOSED` and `blink_wakeup` becomes `(counter + 200) % 2^16`.  When
`seconds != blink_wakeup` the step changes nothing. -/
theorem boredom_branch (rnd : Nat) (s : State) (hst : s.blink_state = STATE_WAITING) :
    ((blink_step rnd s).blink_state ≠ s.blink_state ↔ s.seconds = s.blink_wakeup) ∧
    (s.seconds = s.blink_wakeup → (blink_step rnd s).blink_state = STATE_CLOSED) ∧
    (s.seconds = s.blink_wakeup → s.bored_count > 2000 →
      (blink_step rnd s).active_eyes = (if rnd % 2 = 0 then EYES_LEFT else EYES_RIGHT) ∧
      ((blink_step rnd s).active_eyes = EYES_LEFT ∨
        (blink_step rnd s).active_eyes = EYES_RIGHT) ∧
      (blink_step rnd s).active_eyes ≠ EYES_CLOSED ∧
      (blink_step rnd s).blink_wakeup = (s.counter + 2000) % 65536) ∧
    (s.seconds = s.blink_wakeup → s.bored_count ≤ 2000 →
      (blink_step rnd s).active_eyes = EYES_CLOSED ∧
      (blink_step rnd s).blink_wakeup = (s.counter + 200) % 65536) ∧
    (s.seconds ≠ s.blink_wakeup → blink_step rnd s = s) := by
  have hb := blink_waiting rnd s hst
  have hne : ¬ STATE_CLOSED = STATE_WAITING := by decide
  refine ⟨?_, ?_, ?_, ?_, ?_⟩
  · constructor
    · intro h
      by_contra hsec
      rw [hb, if_neg hsec] at h
      exact h rfl
    · intro hsec
      rw [hb, if_pos hsec, hst]
      split_ifs <;> exact hne
  · intro hsec
    rw [hb, if_pos hsec]
    split_ifs <;> rfl
  · intro hsec hbored
    rw [hb, if_pos hsec, if_pos hbored]
    refine ⟨rfl, ?_, ?_, rfl⟩
    · show (if rnd % 2 = 0 then EYES_LEFT else EYES_RIGHT) = EYES_LEFT ∨
        (if rnd % 2 = 0 then EYES_LEFT else EYES_RIGHT) = EYES_RIGHT
      split_ifs
      · exact Or.inl rfl
      · exact Or.inr rfl
    · show (if rnd % 2 = 0 then EYES_LEFT else EYES_RIGHT) ≠ EYES_CLOSED
      split_ifs <;> decide
  · intro hsec hbored
    rw [hb, if_pos hsec, if_neg (Nat.not_lt.mpr hbored)]
    exact ⟨rfl, rfl⟩
  · intro hsec
    rw [hb, if_neg hsec]

/-- Instance of `boredom_branch`: a bored face (`bored_count = 2001`) at
`counter = 65000` with an odd `rand()` looks right until `counter` is 1464. -/
theorem boredom_branch_witness :
    (blink_step 7 { power_on with blink_state := STATE_WAITING, bored_count := 2001,
                                  counter := 65000 }).active_eyes = EYES_RIGHT ∧
    (blink_step 7 { power_on with blink_state := STATE_WAITING, bored_count := 2001,
                                  counter := 65000 }).blink_wakeup = 1464 :=
  have h := (boredom_branch 7
    { power_on with blink_state := STATE_WAITING, bored_count := 2001, counter := 65000 }
    rfl).2.2.1 rfl (by decide)
  ⟨h.1, h.2.2.2⟩

/-! ## Row output -/

theorem bnot8_eq (x : Nat) : bnot8 x = 255 - x % 256 := by
  unfold bnot8
  omega

theorem bnot8_testBit (x i : Nat) (hi : i < 8) : (bnot8 x).testBit i = !x.testBit i := by
  have h := Nat.testBit_two_pow_sub_succ (Nat.mod_lt x (by norm_num : 0 < 2 ^ 8)) i
  have e : 2 ^ 8 - (x % 2 ^ 8 + 1) = 255 - x % 256 := by
    norm_num
    omega
  rw [e, Nat.testBit_mod_two_pow] at h
  rw [bnot8_eq, h]
  simp [hi]

theorem display_active_col_PORTC (s : State) :
    (display_active_col s).PORTC =
      (if (s.active_col + 1) % 8 = 1 ∧ s.active_eyes ≠ 0xFF then bnot8 s.active_eyes
       else bnot8 (faces_at s.faces s.active_face ((s.active_col + 1) % 8))) := by
  unfold display_active_col
  simp only []
  split_ifs <;> rfl

/-- C10. After a call of `display_active_col`, with `c` the new `active_col`,
`PORTC` holds the 8-bit complement of `active_eyes` when `c == 1` and
`active_eyes != EYES_NONE`, and the 8-bit complement of
`faces[active_face][c]` otherwise; with `EYES_NONE` column 1 shows
`faces[active_face][1]`.  The complement of `x` is `255 - x % 256`: bit `i < 8`
of it is set exactly when bit `i` of `x` is clear. -/
theorem row_output (s : State) :
    (display_active_col s).PORTC =
      bnot8 (if (display_active_col s).active_col = 1 ∧ s.active_eyes ≠ EYES_NONE
             then s.active_eyes
             else faces_at s.faces s.active_face (display_active_col s).active_col) ∧
    (∀ i : Nat, i < 8 → (display_active_col s).PORTC.testBit i =
      !(if (display_active_col s).active_col = 1 ∧ s.active_eyes ≠ EYES_NONE
        then s.active_eyes
        else faces_at s.faces s.active_face (display_active_col s).active_col).testBit i) ∧
    (s.active_eyes = EYES_NONE → (display_active_col s).active_col = 1 →
      (display_active_col s).PORTC = bnot8 (faces_at s.faces s.active_face 1)) ∧
    (∀ x : Nat, bnot8 x = 255 - x % 256) ∧
    (display_active_col s).active_eyes = s.active_eyes ∧
    (display_active_col s).active_face = s.active_face ∧
    (display_active_col s).faces = s.faces := by
  have hP : (display_active_col s).PORTC =
      bnot8 (if (display_active_col s).active_col = 1 ∧ s.active_eyes ≠ EYES_NONE
             then s.active_eyes
             else faces_at s.faces s.active_face (display_active_col s).active_col) := by
    rw [display_active_col_PORTC, display_active_col_active_col]
    simp only [EYES_NONE]
    split_ifs <;> rfl
  refine ⟨hP, ?_, ?_, bnot8_eq, ?_, ?_, ?_⟩
  · intro i hi
    rw [hP, bnot8_testBit _ i hi]
  · intro he hc
    rw [hP, hc, if_neg (fun h => h.2 he)]
  · unfold display_active_col
    simp only []
    split_ifs <;> rfl
  · unfold display_active_col
    simp only []
    split_ifs <;> rfl
  · unfold display_active_col
    simp only []
    split_ifs <;> rfl

/-- Instance of `row_output`: column 1 of face 5 after power-on, without an
overlay (`0x1B` complemented) and with the eyes looking left (`0x14`
complemented). -/
theorem row_output_witness :
    (display_active_col power_on).PORTC = bnot8 (faces_at faces_init 0 1) ∧
    (display_active_col { power_on with active_face := 5 }).PORTC = 0xE4 ∧
    (display_active_col { power_on with active_face := 5, active_eyes := EYES_LEFT }).PORTC
      = 0xEB :=
  ⟨(row_output power_on).2.2.1 rfl rfl,
   (row_output { power_on with active_face := 5 }).1,
   (row_output { power_on with active_face := 5, active_eyes := EYES_LEFT }).1⟩


/-! ## Column step on every second tick -/

theorem clock_tick_active_col (s : State) : (clock_tick s).active_col = s.active_col := by
  unfold clock_tick
  simp only []
  split_ifs <;> rfl

theorem clock_tick_counter (s : State) : (clock_tick s).counter = s.counter := by
  unfold clock_tick
  simp only []
  split_ifs <;> rfl

theorem display_active_col_counter (s : State) :
    (display_active_col s).counter = s.counter := by
  unfold display_active_col
  simp only []
  split_ifs <;> rfl

theorem TIMER0_OVF_cols_fst (s : State) : (TIMER0_OVF_cols s).1 = TIMER0_OVF_vect s := by
  unfold TIMER0_OVF_cols TIMER0_OVF_vect TIMER0_OVF_step
  simp only []
  split_ifs <;> rfl

theorem TIMER0_OVF_cols_snd (s : State) :
    (TIMER0_OVF_cols s).2 = (if (s.counter + 1) % 65536 % 2 = 0 then 1 else 0) := by
  unfold TIMER0_OVF_cols
  simp only [u16]
  split_ifs <;> rfl

theorem TIMER0_OVF_vect_counter (s : State) :
    (TIMER0_OVF_vect s).counter = (s.counter + 1) % 65536 := by
  unfold TIMER0_OVF_vect TIMER0_OVF_step
  simp only [u16]
  split_ifs <;> simp [display_active_col_counter, clock_tick_counter]

theorem TIMER0_OVF_vect_active_col (s : State) :
    (TIMER0_OVF_vect s).active_col =
      (if (s.counter + 1) % 65536 % 2 = 0 then (s.active_col + 1) % 8 else s.active_col) := by
  unfold TIMER0_OVF_vect TIMER0_OVF_step
  simp only [u16]
  split_ifs <;> simp [display_active_col_active_col, clock_tick_active_col]

theorem TIMER0_OVF_cols_run_fst (n : Nat) (s : State) :
    (TIMER0_OVF_cols_run n s).1 = TIMER0_OVF_vect^[n] s := by
  induction n with
  | zero => rfl
  | succ k ih =>
    rw [Function.iterate_succ_apply', ← ih, ← TIMER0_OVF_cols_fst]
    rfl

theorem TIMER0_OVF_cols_pair (s : State) :
    (TIMER0_OVF_cols s).2 + (TIMER0_OVF_cols (TIMER0_OVF_vect s)).2 = 1 ∧
    (TIMER0_OVF_vect (TIMER0_OVF_vect s)).active_col = (s.active_col + 1) % 8 := by
  rw [TIMER0_OVF_cols_snd, TIMER0_OVF_cols_snd, TIMER0_OVF_vect_active_col,
    TIMER0_OVF_vect_active_col, TIMER0_OVF_vect_counter]
  constructor
  · split_ifs <;> omega
  · split_ifs <;> omega

theorem TIMER0_OVF_cols_run_even (m : Nat) (s : State) :
    (TIMER0_OVF_cols_run (2 * m) s).2 = m ∧
    (TIMER0_OVF_cols_run (2 * (m + 1)) s).1.active_col = (s.active_col + (m + 1)) % 8 := by
  have step : ∀ k : Nat,
      (TIMER0_OVF_cols_run (2 * (k + 1)) s).2 = (TIMER0_OVF_cols_run (2 * k) s).2 + 1 ∧
      (TIMER0_OVF_cols_run (2 * (k + 1)) s).1.active_col =
        ((TIMER0_OVF_cols_run (2 * k) s).1.active_col + 1) % 8 := by
    intro k
    have hp := TIMER0_OVF_cols_pair (TIMER0_OVF_cols_run (2 * k) s).1
    have e : 2 * (k + 1) = 2 * k + 1 + 1 := by ring
    rw [e]
    simp only [TIMER0_OVF_cols_run, TIMER0_OVF_cols_fst]
    constructor
    · omega
    · exact hp.2
  induction m with
  | zero =>
    refine ⟨rfl, ?_⟩
    rw [(step 0).2]
    rfl
  | succ k ih =>
    refine ⟨?_, ?_⟩
    · rw [(step k).1, ih.1]
    · rw [(step (k + 1)).2, ih.2]
      omega

/-! ## What the handler and the loop phases leave alone -/

theorem iterate_frame {α : Type} (f : State → State) (g : State → α)
    (h : ∀ s, g (f s) = g s) (n : Nat) (s : State) : g (f^[n] s) = g s := by
  induction n with
  | zero => rfl
  | succ k ih => rw [Function.iterate_succ_apply', h, ih]

theorem display_active_col_frame (s : State) :
    (display_active_col s).active_face = s.active_face ∧
    (display_active_col s).active_eyes = s.active_eyes ∧
    (display_active_col s).faces = s.faces ∧
    (display_active_col s).amplitude = s.amplitude ∧
    (display_active_col s).blink_state = s.blink_state ∧
    (display_active_col s).blink_wakeup = s.blink_wakeup ∧
    (display_active_col s).bored_count = s.bored_count := by
  unfold display_active_col
  simp only []
  split_ifs <;> exact ⟨rfl, rfl, rfl, rfl, rfl, rfl, rfl⟩

theorem clock_tick_frame (s : State) :
    (clock_tick s).active_face = s.active_face ∧
    (clock_tick s).active_eyes = s.active_eyes ∧
    (clock_tick s).faces = s.faces ∧
    (clock_tick s).amplitude = s.amplitude ∧
    (clock_tick s).blink_state = s.blink_state ∧
    (clock_tick s).blink_wakeup = s.blink_wakeup ∧
    (clock_tick s).bored_count = s.bored_count := by
  unfold clock_tick
  simp only []
  split_ifs <;> exact ⟨rfl, rfl, rfl, rfl, rfl, rfl, rfl⟩

theorem TIMER0_OVF_vect_frame (s : State) :
    (TIMER0_OVF_vect s).active_face = s.active_face ∧
    (TIMER0_OVF_vect s).active_eyes = s.active_eyes ∧
    (TIMER0_OVF_vect s).faces = s.faces ∧
    (TIMER0_OVF_vect s).amplitude = s.amplitude ∧
    (TIMER0_OVF_vect s).blink_state = s.blink_state ∧
    (TIMER0_OVF_vect s).blink_wakeup = s.blink_wakeup ∧
    (TIMER0_OVF_vect s).bored_count = s.bored_count := by
  unfold TIMER0_OVF_vect TIMER0_OVF_step
  simp only []
  split_ifs <;> simp [display_active_col_frame, clock_tick_frame]

theorem bored_step_eq (s : State) :
    bored_step s =
      { s with bored_count := if s.active_face = 0 then (s.bored_count + 1) % 65536 else 0 } := by
  unfold bored_step u16
  split_ifs <;> rfl

theorem blink_step_frame (rnd : Nat) (s : State) :
    blink_step rnd s =
      { s with blink_state := (blink_step rnd s).blink_state,
               active_eyes := (blink_step rnd s).active_eyes,
               blink_wakeup := (blink_step rnd s).blink_wakeup } := by
  unfold blink_step
  simp only []
  split_ifs <;> rfl

theorem sample_loop_frame (adc : Nat → Nat) (k : Nat) (s : State) :
    sample_loop adc k s =
      { s with sum := (sample_loop adc k s).sum,
               amplitude := (sample_loop adc k s).amplitude } := by
  induction k with
  | zero => rfl
  | succ m ih =>
    rw [sample_loop, sample_once, ih]

theorem sample_step_frame (adc : Nat → Nat) (s : State) :
    sample_step adc s =
      { s with sum := (sample_step adc s).sum,
               amplitude := (sample_step adc s).amplitude,
               active_face := (sample_step adc s).active_face } := by
  unfold sample_step
  simp only []
  rw [sample_loop_frame]

/-! ## Blink state and eyes -/

theorem blink_eyes_agree_congr (s t : State) (h1 : t.blink_state = s.blink_state)
    (h2 : t.active_eyes = s.active_eyes) (h : blink_eyes_agree s) : blink_eyes_agree t := by
  unfold blink_eyes_agree at *
  rw [h1, h2]
  exact h

theorem blink_eyes_agree_interrupts (k : Nat) (s : State) (h : blink_eyes_agree s) :
    blink_eyes_agree (TIMER0_OVF_vect^[k] s) :=
  blink_eyes_agree_congr s _
    (iterate_frame TIMER0_OVF_vect State.blink_state
      (fun t => (TIMER0_OVF_vect_frame t).2.2.2.2.1) k s)
    (iterate_frame TIMER0_OVF_vect State.active_eyes
      (fun t => (TIMER0_OVF_vect_frame t).2.1) k s) h

theorem sample_step_blink_fields (adc : Nat → Nat) (s : State) :
    (sample_step adc s).blink_state = s.blink_state ∧
    (sample_step adc s).active_eyes = s.active_eyes ∧
    (sample_step adc s).blink_wakeup = s.blink_wakeup ∧
    (sample_step adc s).bored_count = s.bored_count ∧
    (sample_step adc s).faces = s.faces := by
  rw [sample_step_frame]
  exact ⟨rfl, rfl, rfl, rfl, rfl⟩

theorem blink_eyes_agree_bored (s : State) (h : blink_eyes_agree s) :
    blink_eyes_agree (bored_step s) := by
  refine blink_eyes_agree_congr s _ ?_ ?_ h
  · rw [bored_step_eq]
  · rw [bored_step_eq]

theorem blink_eyes_agree_sample (adc : Nat → Nat) (s : State) (h : blink_eyes_agree s) :
    blink_eyes_agree (sample_step adc s) :=
  blink_eyes_agree_congr s _ (sample_step_blink_fields adc s).1
    (sample_step_blink_fields adc s).2.1 h

theorem blink_eyes_agree_blink (rnd : Nat) (s : State) (h : blink_eyes_agree s) :
    blink_eyes_agree (blink_step rnd s) := by
  have hne : ¬ STATE_CLOSED = STATE_WAITING := by decide
  have hne2 : ¬ STATE_WAITING = STATE_CLOSED := by decide
  by_cases hw : s.blink_state = STATE_WAITING
  · rw [blink_waiting rnd s hw]
    by_cases hsec : s.seconds = s.blink_wakeup
    · rw [if_pos hsec]
      by_cases hb : s.bored_count > 2000
      · rw [if_pos hb]
        refine ⟨fun hc => absurd hc hne, fun _ => ?_⟩
        show (if rnd % 2 = 0 then EYES_LEFT else EYES_RIGHT) = EYES_CLOSED ∨
          (if rnd % 2 = 0 then EYES_LEFT else EYES_RIGHT) = EYES_LEFT ∨
          (if rnd % 2 = 0 then EYES_LEFT else EYES_RIGHT) = EYES_RIGHT
        by_cases hr : rnd % 2 = 0
        · rw [if_pos hr]
          exact Or.inr (Or.inl rfl)
        · rw [if_neg hr]
          exact Or.inr (Or.inr rfl)
      · rw [if_neg hb]
        exact ⟨fun hc => absurd hc hne, fun _ => Or.inl rfl⟩
    · rw [if_neg hsec]
      exact h
  · by_cases hc : s.blink_state = STATE_CLOSED
    · rw [blink_closed rnd s hc]
      by_cases hge : s.counter ≥ s.blink_wakeup
      · rw [if_pos hge]
        exact ⟨fun _ => rfl, fun hc2 => absurd hc2 hne2⟩
      · rw [if_neg hge]
        exact h
    · have e : blink_step rnd s = s := by
        unfold blink_step
        rw [if_neg hw, if_neg hc]
      rw [e]
      exact h

theorem blink_eyes_agree_loop_pass (p : Pass) (s : State) (h : blink_eyes_agree s) :
    blink_eyes_agree (loop_pass p s) := by
  unfold loop_pass
  exact blink_eyes_agree_interrupts _ _ (blink_eyes_agree_sample _ _
    (blink_eyes_agree_interrupts _ _ (blink_eyes_agree_blink _ _
      (blink_eyes_agree_interrupts _ _ (blink_eyes_agree_bored _ h)))))

/-- The first pass leaves `STATE_CLOSED` at once: `blink_wakeup` is still 0, so
the test `counter >= blink_wakeup` succeeds whatever `counter` is. -/
theorem blink_eyes_agree_first_pass (p : Pass) (s : State)
    (hc : s.blink_state = STATE_CLOSED) (hw : s.blink_wakeup = 0) :
    blink_eyes_agree (loop_pass p s) := by
  unfold loop_pass
  refine blink_eyes_agree_interrupts _ _ (blink_eyes_agree_sample _ _
    (blink_eyes_agree_interrupts _ _ ?_))
  have hc1 : (TIMER0_OVF_vect^[p.irq_bored] (bored_step s)).blink_state = STATE_CLOSED := by
    rw [iterate_frame TIMER0_OVF_vect State.blink_state
      (fun t => (TIMER0_OVF_vect_frame t).2.2.2.2.1), bored_step_eq]
    exact hc
  have hw1 : (TIMER0_OVF_vect^[p.irq_bored] (bored_step s)).blink_wakeup = 0 := by
    rw [iterate_frame TIMER0_OVF_vect State.blink_wakeup
      (fun t => (TIMER0_OVF_vect_frame t).2.2.2.2.2.1), bored_step_eq]
    exact hw
  have hge : (TIMER0_OVF_vect^[p.irq_bored] (bored_step s)).counter ≥
      (TIMER0_OVF_vect^[p.irq_bored] (bored_step s)).blink_wakeup := by
    rw [hw1]
    exact Nat.zero_le _
  have hne2 : ¬ STATE_WAITING = STATE_CLOSED := by decide
  rw [blink_closed _ _ hc1, if_pos hge]
  exact ⟨fun _ => rfl, fun hc2 => absurd hc2 hne2⟩

/-- C12, as the code has it. At the boundary after every pass of the main loop
(at least one pass made), whatever the inputs and the interrupts taken,
`STATE_WAITING` goes with `EYES_NONE` and `STATE_CLOSED` with one of
`EYES_CLOSED`, `EYES_LEFT`, `EYES_RIGHT`. -/
theorem blink_eyes_agree_after_first_pass (inp : Nat → Pass) (k0 n : Nat) :
    blink_eyes_agree (run_loop inp (n + 1) (TIMER0_OVF_vect^[k0] power_on)) := by
  induction n with
  | zero =>
    refine blink_eyes_agree_first_pass _ _ ?_ ?_
    · exact iterate_frame TIMER0_OVF_vect State.blink_state
        (fun t => (TIMER0_OVF_vect_frame t).2.2.2.2.1) k0 power_on
    · exact iterate_frame TIMER0_OVF_vect State.blink_wakeup
        (fun t => (TIMER0_OVF_vect_frame t).2.2.2.2.2.1) k0 power_on
  | succ k ih => exact blink_eyes_agree_loop_pass _ _ ih

/-- C12 fails in the initial state: at power-on the machine is in
`STATE_CLOSED` while `active_eyes` is `EYES_NONE`. -/
theorem blink_eyes_disagree_at_power_on :
    power_on.blink_state = STATE_CLOSED ∧ power_on.active_eyes = EYES_NONE ∧
    ¬ blink_eyes_agree
        (run_loop (fun _ => { adc := fun _ => 512, rnd := 0, irq_bored := 0, irq_blink := 0,
                              irq_sample := 0 }) 0 (TIMER0_OVF_vect^[0] power_on)) := by
  decide


/-! ## Shape of the rectifier -/

/-- C13, as the code has it. For a reading `r < 512 - DELTA` the deviation
`(512 - r) - DELTA`, computed in unsigned 16-bit arithmetic, is exactly
`(512 - DELTA) - r`; the branch below the threshold is the mirror image of the
branch above it: readings `512 - d` and `512 + d` (both 10-bit for
`d <= 511`) get the same deviation. -/
theorem below_threshold_mirror :
    (∀ r : Nat, r < 512 - DELTA →
      rectify r = sub16 (sub16 512 r) DELTA ∧ rectify r = (512 - DELTA) - r) ∧
    (∀ d : Nat, d ≤ 511 → rectify (512 - d) = rectify (512 + d)) := by
  constructor
  · intro r hr
    unfold rectify sub16 DELTA at *
    split_ifs <;> omega
  · intro d hd
    unfold rectify sub16 DELTA
    split_ifs <;> omega

/-- Instance of `below_threshold_mirror`: the readings 0 and 1 against 1023. -/
theorem below_threshold_mirror_witness :
    rectify 0 = 500 ∧ rectify 1 = rectify 1023 :=
  ⟨(below_threshold_mirror.1 0 (by decide)).2, below_threshold_mirror.2 511 (by decide)⟩

/-- C13 fails: for the reading 499 the code computes the deviation 1, which is
`(512 - DELTA) - 499` and not larger, and the readings `512 - 13` and
`512 + 13` get the same deviation. -/
theorem below_threshold_not_larger :
    rectify 499 = 1 ∧ (512 - DELTA) - 499 = 1 ∧ ¬ (rectify 499 > (512 - DELTA) - 499) ∧
    rectify (512 - 13) = rectify (512 + 13) := by
  decide

/-! ## Boredom counter -/

theorem blink_step_main_fields (rnd : Nat) (s : State) :
    (blink_step rnd s).bored_count = s.bored_count ∧
    (blink_step rnd s).active_face = s.active_face ∧
    (blink_step rnd s).faces = s.faces := by
  rw [blink_step_frame]
  exact ⟨rfl, rfl, rfl⟩

theorem loop_pass_bored_count (p : Pass) (s : State) :
    (loop_pass p s).bored_count =
      (if s.active_face = 0 then (s.bored_count + 1) % 65536 else 0) := by
  unfold loop_pass
  rw [iterate_frame TIMER0_OVF_vect State.bored_count
      (fun t => (TIMER0_OVF_vect_frame t).2.2.2.2.2.2),
    (sample_step_blink_fields _ _).2.2.2.1,
    iterate_frame TIMER0_OVF_vect State.bored_count
      (fun t => (TIMER0_OVF_vect_frame t).2.2.2.2.2.2),
    (blink_step_main_fields _ _).1,
    iterate_frame TIMER0_OVF_vect State.bored_count
      (fun t => (TIMER0_OVF_vect_frame t).2.2.2.2.2.2),
    bored_step_eq]

theorem loop_pass_sum (p : Pass) (s : State) :
    (loop_pass p s).sum =
      (s.sum + deviation_sum p.adc MAX_SAMPLES) % 65536 / MAX_SAMPLES / SCALE := by
  unfold loop_pass
  rw [iterate_frame TIMER0_OVF_vect State.sum TIMER0_OVF_vect_sum, sample_step_sum,
    iterate_frame TIMER0_OVF_vect State.sum TIMER0_OVF_vect_sum, blink_step_sum,
    iterate_frame TIMER0_OVF_vect State.sum TIMER0_OVF_vect_sum, bored_step_sum]

theorem loop_pass_active_face (p : Pass) (s : State) :
    (loop_pass p s).active_face =
      min (MAX_FACES - 1)
        ((s.sum + deviation_sum p.adc MAX_SAMPLES) % 65536 / MAX_SAMPLES / SCALE) := by
  unfold loop_pass
  rw [iterate_frame TIMER0_OVF_vect State.active_face (fun t => (TIMER0_OVF_vect_frame t).1),
    sample_step_active_face,
    iterate_frame TIMER0_OVF_vect State.sum TIMER0_OVF_vect_sum, blink_step_sum,
    iterate_frame TIMER0_OVF_vect State.sum TIMER0_OVF_vect_sum, bored_step_sum]

theorem run_loop_bored_count (inp : Nat → Pass) (s : State) (n : Nat)
    (h0 : s.active_face ≠ 0)
    (hq : ∀ k, 1 ≤ k → k ≤ n → (run_loop inp k s).active_face = 0) :
    (run_loop inp (n + 1) s).bored_count = n % 65536 := by
  induction n with
  | zero =>
    show (loop_pass (inp 0) s).bored_count = 0
    rw [loop_pass_bored_count, if_neg h0]
  | succ m ih =>
    have h1 := ih (fun k hk1 hk2 => hq k hk1 (Nat.le_succ_of_le hk2))
    have h2 := hq (m + 1) (Nat.succ_le_succ (Nat.zero_le m)) (Nat.le_refl _)
    show (loop_pass (inp (m + 1)) (run_loop inp (m + 1) s)).bored_count = (m + 1) % 65536
    rw [loop_pass_bored_count, if_pos h2, h1]
    omega

theorem run_loop_quiet (inp : Nat → Pass) (s : State) (hs : s.sum ≤ 42)
    (hq : ∀ k i, i < MAX_SAMPLES → (inp k).adc i = 512) (k : Nat) :
    (run_loop inp (k + 1) s).active_face = 0 ∧ (run_loop inp (k + 1) s).sum = 0 := by
  have one : ∀ (j : Nat) (t : State), t.sum ≤ 42 →
      (loop_pass (inp j) t).active_face = 0 ∧ (loop_pass (inp j) t).sum = 0 := by
    intro j t ht
    rw [loop_pass_active_face, loop_pass_sum, deviation_sum_silence _ _ (hq j)]
    simp only [MAX_SAMPLES, SCALE, MAX_FACES]
    omega
  induction k with
  | zero => exact one 0 s hs
  | succ m ih =>
    refine one (m + 1) _ ?_
    rw [ih.2]
    omega

/-- The quiet-run count of the code. When a pass that begins with
`active_face != 0` is followed by `n` passes that each begin with
`active_face == 0`, then `bored_count` is `n % 2^16` after them (so `n` as
long as `n < 65536`); and every pass that begins with `active_face != 0`
leaves `bored_count = 0`. -/
theorem bored_count_counts_quiet_run (inp : Nat → Pass) (s : State) (n : Nat)
    (h0 : s.active_face ≠ 0)
    (hq : ∀ k, 1 ≤ k → k ≤ n → (run_loop inp k s).active_face = 0) :
    (run_loop inp (n + 1) s).bored_count = n % 65536 ∧
    (n < 65536 → (run_loop inp (n + 1) s).bored_count = n) ∧
    (∀ p : Pass, (loop_pass p s).bored_count = 0) ∧
    (∀ (adc : Nat → Nat) (rnd : Nat), (main_loop_body adc rnd s).bored_count = 0) := by
  have h := run_loop_bored_count inp s n h0 hq
  refine ⟨h, ?_, ?_, ?_⟩
  · intro hn
    rw [h, Nat.mod_eq_of_lt hn]
  · intro p
    rw [loop_pass_bored_count, if_neg h0]
  · intro adc rnd
    have e := loop_pass_bored_count
      { adc := adc, rnd := rnd, irq_bored := 0, irq_blink := 0, irq_sample := 0 } s
    rw [if_neg h0] at e
    exact e

/-- Instance of `bored_count_counts_quiet_run`: after a loud first pass, three
quiet passes. -/
theorem bored_count_counts_quiet_run_witness :
    (run_loop (fun _ => { adc := fun _ => 512, rnd := 0, irq_bored := 1, irq_blink := 2,
                          irq_sample := 3 }) 4
      (main_loop_body (fun _ => 1023) 0 power_on)).bored_count = 3 := by
  have hs : (main_loop_body (fun _ => 1023) 0 power_on).sum ≤ 42 := by decide
  have hq : ∀ k, 1 ≤ k → k ≤ 3 →
      (run_loop (fun _ => { adc := fun _ => 512, rnd := 0, irq_bored := 1, irq_blink := 2,
                            irq_sample := 3 }) k
        (main_loop_body (fun _ => 1023) 0 power_on)).active_face = 0 := by
    intro k hk1 _
    obtain ⟨j, rfl⟩ : ∃ j, k = j + 1 := ⟨k - 1, by omega⟩
    exact (run_loop_quiet _ _ hs (fun _ _ _ => rfl) j).1
  exact (bored_count_counts_quiet_run _ _ 3 (by decide) hq).2.1 (by decide)

/-- C14. The 16-bit increment of `bored_count` wraps. After a loud first pass
from power-on (which ends with `active_face = 5`) the next pass begins with
`active_face != 0`; the 65536 passes after it all begin with
`active_face == 0`. After 65535 of them `bored_count` is 65535, after the
65536th it is 0, not 65536. -/
theorem bored_count_wraps :
    (main_loop_body (fun _ => 1023) 0 power_on).active_face ≠ 0 ∧
    (∀ k, 1 ≤ k → k ≤ 65536 →
      (run_loop (fun _ => { adc := fun _ => 512, rnd := 0, irq_bored := 0, irq_blink := 0,
                            irq_sample := 0 }) k
        (main_loop_body (fun _ => 1023) 0 power_on)).active_face = 0) ∧
    (run_loop (fun _ => { adc := fun _ => 512, rnd := 0, irq_bored := 0, irq_blink := 0,
                          irq_sample := 0 }) 65536
      (main_loop_body (fun _ => 1023) 0 power_on)).bored_count = 65535 ∧
    (run_loop (fun _ => { adc := fun _ => 512, rnd := 0, irq_bored := 0, irq_blink := 0,
                          irq_sample := 0 }) 65537
      (main_loop_body (fun _ => 1023) 0 power_on)).bored_count = 0 := by
  have h0 : (main_loop_body (fun _ => 1023) 0 power_on).active_face ≠ 0 := by decide
  have hs : (main_loop_body (fun _ => 1023) 0 power_on).sum ≤ 42 := by decide
  have hq : ∀ k, 1 ≤ k → k ≤ 65536 →
      (run_loop (fun _ => { adc := fun _ => 512, rnd := 0, irq_bored := 0, irq_blink := 0,
                            irq_sample := 0 }) k
        (main_loop_body (fun _ => 1023) 0 power_on)).active_face = 0 := by
    intro k hk1 _
    obtain ⟨j, rfl⟩ : ∃ j, k = j + 1 := ⟨k - 1, by omega⟩
    exact (run_loop_quiet _ _ hs (fun _ _ _ => rfl) j).1
  exact ⟨h0, hq,
    run_loop_bored_count _ _ 65535 h0 (fun k hk1 hk2 => hq k hk1 (Nat.le_succ_of_le hk2)),
    run_loop_bored_count _ _ 65536 h0 hq⟩

/-! ## Length of a blink -/

/-- While `counter` is below the wake-up time, the step in `STATE_CLOSED`
changes nothing; this covers a blink started at `counter = c` with
`c + 200 < 2^16`. -/
theorem blink_closed_holds_before_wakeup (rnd c k : Nat) (s : State)
    (hst : s.blink_state = STATE_CLOSED) (hc : c + 200 < 65536) (hk : k < 200)
    (hw : s.blink_wakeup = (c + 200) % 65536) (hcnt : s.counter = (c + k) % 65536) :
    blink_step rnd s = s := by
  have hlt : ¬ s.counter ≥ s.blink_wakeup := by
    rw [hw, hcnt]
    omega
  rw [blink_closed rnd s hst, if_neg hlt]

set_option maxRecDepth 100000 in
/-- C16. A blink started at `counter = 65400` (state `STATE_WAITING`,
`seconds == blink_wakeup`, `bored_count = 5`) gets the wake-up time
`(65400 + 200) % 2^16 = 64`; the blink step that runs 100 timer ticks later
(`counter = 65500`) finds `counter >= blink_wakeup` and goes back to
`STATE_WAITING` with `EYES_NONE`, although fewer than 200 ticks have
elapsed. -/
theorem blink_cut_short_by_wrap :
    (blink_step 0 { power_on with blink_state := STATE_WAITING, counter := 65400,
                                  bored_count := 5 }).blink_state = STATE_CLOSED ∧
    (blink_step 0 { power_on with blink_state := STATE_WAITING, counter := 65400,
                                  bored_count := 5 }).active_eyes = EYES_CLOSED ∧
    (blink_step 0 { power_on with blink_state := STATE_WAITING, counter := 65400,
                                  bored_count := 5 }).blink_wakeup = 64 ∧
    (TIMER0_OVF_vect^[100]
      (blink_step 0 { power_on with blink_state := STATE_WAITING, counter := 65400,
                                    bored_count := 5 })).counter = 65500 ∧
    (blink_step 0 (TIMER0_OVF_vect^[100]
      (blink_step 0 { power_on with blink_state := STATE_WAITING, counter := 65400,
                                    bored_count := 5 }))).blink_state = STATE_WAITING ∧
    (blink_step 0 (TIMER0_OVF_vect^[100]
      (blink_step 0 { power_on with blink_state := STATE_WAITING, counter := 65400,
                                    bored_count := 5 }))).active_eyes = EYES_NONE := by
  decide


/-! ## Column lines -/

theorem display_active_col_PORTB (s : State) :
    (display_active_col s).PORTB =
      (if (s.active_col + 1) % 8 = 6 ∨ (s.active_col + 1) % 8 = 7 then
        (if s.active_col > 5 then s.PORTB else s.PORTB &&& bnot8 (1 <<< s.active_col))
       else
        (if s.active_col > 5 then s.PORTB else s.PORTB &&& bnot8 (1 <<< s.active_col))
          ||| (1 <<< ((s.active_col + 1) % 8))) := by
  unfold display_active_col
  simp only []
  split_ifs <;> first | rfl | (exfalso; simp only [] at *; omega)

theorem display_active_col_PORTD (s : State) :
    (display_active_col s).PORTD =
      (if (s.active_col + 1) % 8 = 6 then
        (if s.active_col > 5 then s.PORTD &&& bnot8 0x0c else s.PORTD) ||| 0x04
       else if (s.active_col + 1) % 8 = 7 then
        (if s.active_col > 5 then s.PORTD &&& bnot8 0x0c else s.PORTD) ||| 0x08
       else
        (if s.active_col > 5 then s.PORTD &&& bnot8 0x0c else s.PORTD)) := by
  unfold display_active_col
  simp only []
  split_ifs <;> rfl

theorem or_keeps_masked (P m M : Nat) (h : M &&& m = 0) : (P ||| m) &&& M = P &&& M := by
  rw [Nat.and_comm, Nat.and_or_distrib_left, h, Nat.or_zero, Nat.and_comm]

theorem and_keeps_masked (P n M : Nat) (h : n &&& M = M) : (P &&& n) &&& M = P &&& M := by
  rw [Nat.and_assoc, h]

/-- The bits of `PORTB` and `PORTD` that are not column lines keep their
value in `display_active_col`. -/
theorem display_active_col_other_bits (s : State) :
    (display_active_col s).PORTB &&& 0xC0 = s.PORTB &&& 0xC0 ∧
    (display_active_col s).PORTD &&& 0xF3 = s.PORTD &&& 0xF3 := by
  rw [display_active_col_PORTB, display_active_col_PORTD]
  have hc : (s.active_col + 1) % 8 < 8 := Nat.mod_lt _ (by decide)
  generalize (s.active_col + 1) % 8 = c at hc
  have hclr : ∀ a : Nat, a ≤ 5 → bnot8 (1 <<< a) &&& 0xC0 = 0xC0 := by decide
  have hset : ∀ c : Nat, c < 6 → 0xC0 &&& (1 <<< c) = 0 := by decide
  constructor
  · by_cases ha : s.active_col > 5
    · simp only [if_pos ha]
      split_ifs with h67
      · rfl
      · exact or_keeps_masked _ _ _ (hset c (by omega))
    · simp only [if_neg ha]
      split_ifs with h67
      · exact and_keeps_masked _ _ _ (hclr _ (by omega))
      · rw [or_keeps_masked _ _ _ (hset c (by omega))]
        exact and_keeps_masked _ _ _ (hclr _ (by omega))
  · have h1 : bnot8 0x0c &&& 0xF3 = 0xF3 := by decide
    have h2 : 0xF3 &&& 0x04 = 0 := by decide
    have h3 : 0xF3 &&& 0x08 = 0 := by decide
    by_cases ha : s.active_col > 5
    · simp only [if_pos ha]
      split_ifs
      · rw [or_keeps_masked _ _ _ h2]
        exact and_keeps_masked _ _ _ h1
      · rw [or_keeps_masked _ _ _ h3]
        exact and_keeps_masked _ _ _ h1
      · exact and_keeps_masked _ _ _ h1
    · simp only [if_neg ha]
      split_ifs
      · exact or_keeps_masked _ _ _ h2
      · exact or_keeps_masked _ _ _ h3
      · rfl

/-- One call of `display_active_col` from a state in which no column line
other than that of `active_col` is high and the other port bits are 0. -/
theorem one_hot_step (s : State) (ha : s.active_col < 8)
    (hB : s.PORTB = (if s.active_col < 6 then 1 <<< s.active_col else 0) ∨ s.PORTB = 0)
    (hD : s.PORTD = (if s.active_col = 6 then 0x04 else if s.active_col = 7 then 0x08 else 0)
      ∨ s.PORTD = 0) :
    (display_active_col s).PORTB =
      (if (display_active_col s).active_col < 6 then 1 <<< (display_active_col s).active_col
       else 0) ∧
    (display_active_col s).PORTD =
      (if (display_active_col s).active_col = 6 then 0x04
       else if (display_active_col s).active_col = 7 then 0x08 else 0) := by
  rw [display_active_col_PORTB, display_active_col_PORTD, display_active_col_active_col]
  generalize s.active_col = a at *
  generalize s.PORTB = P at *
  generalize s.PORTD = D at *
  interval_cases a <;> rcases hB with hB | hB <;> rcases hD with hD | hD <;>
    subst hB <;> subst hD <;> decide

theorem column_line_of_one_hot (s : State) (ha : s.active_col < 8)
    (hB : s.PORTB = (if s.active_col < 6 then 1 <<< s.active_col else 0))
    (hD : s.PORTD = (if s.active_col = 6 then 0x04 else if s.active_col = 7 then 0x08 else 0))
    (k : Nat) (hk : k < 8) : column_line s k = decide (k = s.active_col) := by
  unfold column_line
  rw [hB, hD]
  generalize s.active_col = c at *
  interval_cases c <;> interval_cases k <;> rfl

theorem display_active_col_iterate_one_hot (n : Nat) :
    (display_active_col^[n + 1] power_on).PORTB =
      (if (display_active_col^[n + 1] power_on).active_col < 6
       then 1 <<< (display_active_col^[n + 1] power_on).active_col else 0) ∧
    (display_active_col^[n + 1] power_on).PORTD =
      (if (display_active_col^[n + 1] power_on).active_col = 6 then 0x04
       else if (display_active_col^[n + 1] power_on).active_col = 7 then 0x08 else 0) := by
  induction n with
  | zero => decide
  | succ m ih =>
    rw [Function.iterate_succ_apply']
    refine one_hot_step _ ?_ (Or.inl ih.1) (Or.inl ih.2)
    rw [display_active_col_iterate]
    omega

theorem clock_tick_ports (s : State) :
    (clock_tick s).PORTB = s.PORTB ∧ (clock_tick s).PORTD = s.PORTD ∧
    (clock_tick s).PORTC = s.PORTC := by
  unfold clock_tick
  simp only []
  split_ifs <;> exact ⟨rfl, rfl, rfl⟩

theorem display_active_col_counter_irrelevant (s : State) (x : Nat) :
    (display_active_col { s with counter := x }).PORTB = (display_active_col s).PORTB ∧
    (display_active_col { s with counter := x }).PORTD = (display_active_col s).PORTD ∧
    (display_active_col { s with counter := x }).active_col = (display_active_col s).active_col := by
  rw [display_active_col_PORTB, display_active_col_PORTD, display_active_col_active_col,
    display_active_col_PORTB, display_active_col_PORTD, display_active_col_active_col]
  exact ⟨rfl, rfl, rfl⟩

/-- The column lines after an invocation of the handler are those after a
call of `display_active_col`, or those before the invocation. -/
theorem TIMER0_OVF_vect_columns (s : State) :
    ((TIMER0_OVF_vect s).active_col = (display_active_col s).active_col ∧
      (TIMER0_OVF_vect s).PORTB = (display_active_col s).PORTB ∧
      (TIMER0_OVF_vect s).PORTD = (display_active_col s).PORTD) ∨
    ((TIMER0_OVF_vect s).active_col = s.active_col ∧
      (TIMER0_OVF_vect s).PORTB = s.PORTB ∧
      (TIMER0_OVF_vect s).PORTD = s.PORTD) := by
  have hx := display_active_col_counter_irrelevant s (u16 (s.counter + 1))
  unfold TIMER0_OVF_vect TIMER0_OVF_step
  simp only []
  split_ifs
  · left
    simp only [clock_tick_ports, clock_tick_active_col]
    exact ⟨hx.2.2, hx.1, hx.2.1⟩
  · left
    exact ⟨hx.2.2, hx.1, hx.2.1⟩
  · right
    simp only [clock_tick_ports, clock_tick_active_col]
    exact ⟨trivial, trivial, trivial⟩
  · right
    exact ⟨rfl, rfl, rfl⟩

theorem blink_step_ports (rnd : Nat) (s : State) :
    (blink_step rnd s).active_col = s.active_col ∧ (blink_step rnd s).PORTB = s.PORTB ∧
    (blink_step rnd s).PORTD = s.PORTD := by
  rw [blink_step_frame]
  exact ⟨rfl, rfl, rfl⟩

theorem sample_step_ports (adc : Nat → Nat) (s : State) :
    (sample_step adc s).active_col = s.active_col ∧ (sample_step adc s).PORTB = s.PORTB ∧
    (sample_step adc s).PORTD = s.PORTD := by
  rw [sample_step_frame]
  exact ⟨rfl, rfl, rfl⟩

theorem bored_step_ports (s : State) :
    (bored_step s).active_col = s.active_col ∧ (bored_step s).PORTB = s.PORTB ∧
    (bored_step s).PORTD = s.PORTD := by
  rw [bored_step_eq]
  exact ⟨rfl, rfl, rfl⟩

/-- In every reachable state either no call of `display_active_col` has been
made (the ports are as at power-on), or the column lines are one-hot at
`active_col` and the other bits of `PORTB` and `PORTD` are 0. -/
theorem Reachable16_columns (s : State) (h : Reachable16 s) :
    s.active_col < 8 ∧
    ((s.active_col = 0 ∧ s.PORTB = 0 ∧ s.PORTD = 0) ∨
     (s.PORTB = (if s.active_col < 6 then 1 <<< s.active_col else 0) ∧
      s.PORTD = (if s.active_col = 6 then 0x04 else if s.active_col = 7 then 0x08 else 0))) := by
  induction h with
  | start => decide
  | interrupt s _ ih =>
    rcases TIMER0_OVF_vect_columns s with ⟨h1, h2, h3⟩ | ⟨h1, h2, h3⟩
    · rw [h1, h2, h3]
      refine ⟨?_, Or.inr ?_⟩
      · rw [display_active_col_active_col]
        omega
      · rcases ih.2 with ⟨_, hb, hd⟩ | ⟨hb, hd⟩
        · exact one_hot_step s ih.1 (Or.inr hb) (Or.inr hd)
        · exact one_hot_step s ih.1 (Or.inl hb) (Or.inl hd)
    · rw [h1, h2, h3]
      exact ih
  | bored s _ ih =>
    rw [(bored_step_ports s).1, (bored_step_ports s).2.1, (bored_step_ports s).2.2]
    exact ih
  | blink rnd s _ ih =>
    rw [(blink_step_ports rnd s).1, (blink_step_ports rnd s).2.1, (blink_step_ports rnd s).2.2]
    exact ih
  | sample adc s _ _ ih =>
    rw [(sample_step_ports adc s).1, (sample_step_ports adc s).2.1,
      (sample_step_ports adc s).2.2]
    exact ih

/-- C11. An invocation of the timer handler stores `(counter + 1) % 2^16` in
`counter` and calls `display_active_col` (once) exactly when that new value is
even, so `active_col` advances exactly then; of two consecutive invocations
exactly one makes the call, also from `counter = 65535`; `2 * m` consecutive
invocations make `m` calls, so 16 make 8 and bring `active_col` back to what
it was (it is below 8 in every reachable state). -/
theorem column_step_every_second_tick :
    (∀ s : State, (TIMER0_OVF_cols s).1 = TIMER0_OVF_vect s) ∧
    (∀ s : State, (TIMER0_OVF_vect s).counter = (s.counter + 1) % 65536) ∧
    (∀ s : State, (TIMER0_OVF_cols s).2 =
      (if (TIMER0_OVF_vect s).counter % 2 = 0 then 1 else 0)) ∧
    (∀ s : State, (TIMER0_OVF_vect s).active_col =
      (if (TIMER0_OVF_vect s).counter % 2 = 0 then (s.active_col + 1) % 8
       else s.active_col)) ∧
    (∀ s : State, (TIMER0_OVF_cols s).2 + (TIMER0_OVF_cols (TIMER0_OVF_vect s)).2 = 1) ∧
    ((TIMER0_OVF_cols { power_on with counter := 65534 }).2 = 0 ∧
      (TIMER0_OVF_cols { power_on with counter := 65535 }).2 = 1 ∧
      (TIMER0_OVF_vect { power_on with counter := 65535 }).counter = 0 ∧
      (TIMER0_OVF_cols { power_on with counter := 0 }).2 = 0) ∧
    (∀ (s : State) (m : Nat), (TIMER0_OVF_cols_run (2 * m) s).2 = m) ∧
    (∀ s : State, (TIMER0_OVF_cols_run 16 s).2 = 8) ∧
    (∀ s : State, (TIMER0_OVF_vect^[16] s).active_col = s.active_col % 8) ∧
    (∀ s : State, s.active_col < 8 → (TIMER0_OVF_vect^[16] s).active_col = s.active_col) ∧
    (∀ s : State, Reachable16 s → (TIMER0_OVF_vect^[16] s).active_col = s.active_col) := by
  have h16 : ∀ s : State, (TIMER0_OVF_vect^[16] s).active_col = s.active_col % 8 := by
    intro s
    rw [← TIMER0_OVF_cols_run_fst]
    have h := (TIMER0_OVF_cols_run_even 7 s).2
    simp only [Nat.reduceAdd, Nat.reduceMul] at h
    rw [h]
    omega
  refine ⟨TIMER0_OVF_cols_fst, TIMER0_OVF_vect_counter, ?_, ?_,
    fun s => (TIMER0_OVF_cols_pair s).1, ?_, fun s m => (TIMER0_OVF_cols_run_even m s).1,
    fun s => (TIMER0_OVF_cols_run_even 8 s).1, h16, ?_, ?_⟩
  · intro s
    rw [TIMER0_OVF_cols_snd, TIMER0_OVF_vect_counter]
  · intro s
    rw [TIMER0_OVF_vect_active_col, TIMER0_OVF_vect_counter]
  · decide
  · intro s hs
    rw [h16, Nat.mod_eq_of_lt hs]
  · intro s hs
    rw [h16, Nat.mod_eq_of_lt (Reachable16_columns s hs).1]

/-- Instance of `column_step_every_second_tick`: 16 invocations that start in
column 5 with `counter = 65530`, across the wrap of `counter`. -/
theorem column_step_every_second_tick_witness :
    (TIMER0_OVF_vect^[16] { power_on with active_col := 5, counter := 65530 }).active_col = 5 ∧
    (TIMER0_OVF_cols_run 16 { power_on with active_col := 5, counter := 65530 }).2 = 8 :=
  ⟨column_step_every_second_tick.2.2.2.2.2.2.2.2.2.1
      { power_on with active_col := 5, counter := 65530 } (by decide),
   column_step_every_second_tick.2.2.2.2.2.2.2.1
      { power_on with active_col := 5, counter := 65530 }⟩


/-- C17. From power-on, after every call of `display_active_col` exactly the
column line of the new `active_col` is high (`PB<c>` for `c` in 0..5, `PD2`
for 6, `PD3` for 7) and every other bit of `PORTB` and `PORTD` is 0 as at
power-on; in any state a call leaves bits 6, 7 of `PORTB` and bits 0, 1, 4..7
of `PORTD` as they were; and in the running program (interrupts and loop
phases in any order) the column lines are all low before the first call and
one-hot at `active_col` from then on. -/
theorem one_hot_column_select :
    (∀ (n k : Nat), k < 8 →
      column_line (display_active_col^[n + 1] power_on) k = decide (k = (n + 1) % 8)) ∧
    (∀ n : Nat,
      (display_active_col^[n + 1] power_on).PORTB =
        (if (n + 1) % 8 < 6 then 1 <<< ((n + 1) % 8) else 0) ∧
      (display_active_col^[n + 1] power_on).PORTD =
        (if (n + 1) % 8 = 6 then 0x04 else if (n + 1) % 8 = 7 then 0x08 else 0)) ∧
    (∀ s : State,
      (display_active_col s).PORTB &&& 0xC0 = s.PORTB &&& 0xC0 ∧
      (display_active_col s).PORTD &&& 0xF3 = s.PORTD &&& 0xF3) ∧
    (∀ s : State, Reachable16 s →
      (s.active_col = 0 ∧ s.PORTB = 0 ∧ s.PORTD = 0) ∨
      (∀ k : Nat, k < 8 → column_line s k = decide (k = s.active_col))) := by
  have hc : ∀ n : Nat, (display_active_col^[n + 1] power_on).active_col = (n + 1) % 8 := by
    intro n
    rw [display_active_col_iterate]
    show (0 + (n + 1)) % 8 = (n + 1) % 8
    rw [Nat.zero_add]
  refine ⟨?_, ?_, display_active_col_other_bits, ?_⟩
  · intro n k hk
    have h := display_active_col_iterate_one_hot n
    have hlt : (display_active_col^[n + 1] power_on).active_col < 8 := by
      rw [hc]
      omega
    rw [column_line_of_one_hot _ hlt h.1 h.2 k hk, hc]
  · intro n
    have h := display_active_col_iterate_one_hot n
    rw [hc] at h
    exact h
  · intro s hs
    rcases (Reachable16_columns s hs).2 with h0 | ⟨hb, hd⟩
    · exact Or.inl h0
    · exact Or.inr (column_line_of_one_hot s (Reachable16_columns s hs).1 hb hd)

/-- Instance of `one_hot_column_select`: after seven calls from power-on line
7 (`PD3`) is high and line 6 (`PD2`) is low; after two interrupts from
power-on line 1 is high. -/
theorem one_hot_column_select_witness :
    column_line (display_active_col^[7] power_on) 7 = true ∧
    column_line (display_active_col^[7] power_on) 6 = false ∧
    ((TIMER0_OVF_vect (TIMER0_OVF_vect power_on)).active_col = 0 ∧
        (TIMER0_OVF_vect (TIMER0_OVF_vect power_on)).PORTB = 0 ∧
        (TIMER0_OVF_vect (TIMER0_OVF_vect power_on)).PORTD = 0 ∨
      ∀ k : Nat, k < 8 → column_line (TIMER0_OVF_vect (TIMER0_OVF_vect power_on)) k =
        decide (k = (TIMER0_OVF_vect (TIMER0_OVF_vect power_on)).active_col)) :=
  ⟨one_hot_column_select.1 6 7 (by decide), one_hot_column_select.1 6 6 (by decide),
   one_hot_column_select.2.2.2 _
     (Reachable16.interrupt _ (Reachable16.interrupt _ Reachable16.start))⟩


/-! ## Bounds of the bitmap lookup -/

theorem Reachable16_face (s : State) (h : Reachable16 s) :
    s.active_face < MAX_FACES ∧ s.faces = faces_init := by
  induction h with
  | start => decide
  | interrupt s _ ih =>
    rw [(TIMER0_OVF_vect_frame s).1, (TIMER0_OVF_vect_frame s).2.2.1]
    exact ih
  | bored s _ ih =>
    rw [bored_step_eq]
    exact ih
  | blink rnd s _ ih =>
    rw [(blink_step_main_fields rnd s).2.1, (blink_step_main_fields rnd s).2.2]
    exact ih
  | sample adc s _ _ ih =>
    rw [sample_step_active_face, (sample_step_blink_fields adc s).2.2.2.2]
    refine ⟨?_, ih.2⟩
    simp only [MAX_FACES]
    omega

theorem faces_init_in_bounds (f c : Nat) (hf : f < MAX_FACES) (hc : c < 8) :
    ∃ row : List Nat, faces_init[f]? = some row ∧ row[c]? = some (faces_at faces_init f c) := by
  unfold MAX_FACES at hf
  interval_cases f <;> interval_cases c <;> exact ⟨_, rfl, rfl⟩

/-- C18. In every state reachable from power-on with arbitrary 16-bit
readings and interrupts at any point between the phases of the loop,
`active_face < MAX_FACES`, the table is the 6 x 8 table of the source, and the
column with which `display_active_col` reads the table (the new `active_col`)
is below 8; so the read `faces[active_face][active_col]` is the entry of an
existing row at an existing position. -/
theorem bitmap_lookup_in_bounds (s : State) (h : Reachable16 s) :
    s.active_face < MAX_FACES ∧
    (display_active_col s).active_col < 8 ∧
    s.active_col < 8 ∧
    s.faces = faces_init ∧
    s.faces.length = MAX_FACES ∧
    (∀ row ∈ s.faces, row.length = 8) ∧
    (∃ row : List Nat, s.faces[s.active_face]? = some row ∧
      row[(display_active_col s).active_col]? =
        some (faces_at s.faces s.active_face (display_active_col s).active_col)) := by
  obtain ⟨hf, ht⟩ := Reachable16_face s h
  have hc : (display_active_col s).active_col < 8 := by
    rw [display_active_col_active_col]
    omega
  refine ⟨hf, hc, (Reachable16_columns s h).1, ht, ?_, ?_, ?_⟩
  · rw [ht]
    rfl
  · rw [ht]
    decide
  · rw [ht]
    exact faces_init_in_bounds _ _ hf hc

/-- Instance of `bitmap_lookup_in_bounds`: the state after one interrupt and a
sampling phase with readings of 65535. -/
theorem bitmap_lookup_in_bounds_witness :
    (sample_step (fun _ => 65535) (TIMER0_OVF_vect power_on)).active_face < MAX_FACES :=
  (bitmap_lookup_in_bounds _
    (Reachable16.sample (fun _ => 65535) _ (Reachable16.interrupt _ Reachable16.start)
      (fun _ _ => by norm_num))).1

/-! ## Who writes what -/

theorem bored_step_timer_fields (s : State) :
    (bored_step s).active_col = s.active_col ∧ (bored_step s).counter = s.counter ∧
    (bored_step s).sub_count = s.sub_count ∧ (bored_step s).seconds = s.seconds ∧
    (bored_step s).minutes = s.minutes ∧ (bored_step s).hours = s.hours := by
  rw [bored_step_eq]
  exact ⟨rfl, rfl, rfl, rfl, rfl, rfl⟩

theorem blink_step_timer_fields (rnd : Nat) (s : State) :
    (blink_step rnd s).active_col = s.active_col ∧ (blink_step rnd s).counter = s.counter ∧
    (blink_step rnd s).sub_count = s.sub_count ∧ (blink_step rnd s).seconds = s.seconds ∧
    (blink_step rnd s).minutes = s.minutes ∧ (blink_step rnd s).hours = s.hours := by
  rw [blink_step_frame]
  exact ⟨rfl, rfl, rfl, rfl, rfl, rfl⟩

theorem sample_step_timer_fields (adc : Nat → Nat) (s : State) :
    (sample_step adc s).active_col = s.active_col ∧ (sample_step adc s).counter = s.counter ∧
    (sample_step adc s).sub_count = s.sub_count ∧ (sample_step adc s).seconds = s.seconds ∧
    (sample_step adc s).minutes = s.minutes ∧ (sample_step adc s).hours = s.hours := by
  rw [sample_step_frame]
  exact ⟨rfl, rfl, rfl, rfl, rfl, rfl⟩

/-- C19. An invocation of the timer handler, and each of `display_active_col`
and `clock_tick`, leaves `active_face`, `active_eyes` and the table `faces`
unchanged; a pass through the body of the main loop leaves `active_col`,
`counter`, `sub_count`, `seconds`, `minutes` and `hours` unchanged. -/
theorem single_writer :
    (∀ s : State,
      (TIMER0_OVF_vect s).active_face = s.active_face ∧
      (TIMER0_OVF_vect s).active_eyes = s.active_eyes ∧
      (TIMER0_OVF_vect s).faces = s.faces) ∧
    (∀ s : State,
      (display_active_col s).active_face = s.active_face ∧
      (display_active_col s).active_eyes = s.active_eyes ∧
      (display_active_col s).faces = s.faces) ∧
    (∀ s : State,
      (clock_tick s).active_face = s.active_face ∧
      (clock_tick s).active_eyes = s.active_eyes ∧
      (clock_tick s).faces = s.faces) ∧
    (∀ (adc : Nat → Nat) (rnd : Nat) (s : State),
      (main_loop_body adc rnd s).active_col = s.active_col ∧
      (main_loop_body adc rnd s).counter = s.counter ∧
      (main_loop_body adc rnd s).sub_count = s.sub_count ∧
      (main_loop_body adc rnd s).seconds = s.seconds ∧
      (main_loop_body adc rnd s).minutes = s.minutes ∧
      (main_loop_body adc rnd s).hours = s.hours) := by
  refine ⟨?_, ?_, ?_, ?_⟩
  · intro s
    exact ⟨(TIMER0_OVF_vect_frame s).1, (TIMER0_OVF_vect_frame s).2.1,
      (TIMER0_OVF_vect_frame s).2.2.1⟩
  · intro s
    exact ⟨(display_active_col_frame s).1, (display_active_col_frame s).2.1,
      (display_active_col_frame s).2.2.1⟩
  · intro s
    exact ⟨(clock_tick_frame s).1, (clock_tick_frame s).2.1, (clock_tick_frame s).2.2.1⟩
  · intro adc rnd s
    unfold main_loop_body
    obtain ⟨a1, a2, a3, a4, a5, a6⟩ := sample_step_timer_fields adc (blink_step rnd (bored_step s))
    obtain ⟨b1, b2, b3, b4, b5, b6⟩ := blink_step_timer_fields rnd (bored_step s)
    obtain ⟨c1, c2, c3, c4, c5, c6⟩ := bored_step_timer_fields s
    exact ⟨a1.trans (b1.trans c1), a2.trans (b2.trans c2), a3.trans (b3.trans c3),
      a4.trans (b4.trans c4), a5.trans (b5.trans c5), a6.trans (b6.trans c6)⟩


/-! ## Range of the accumulator -/

theorem loop_pass_eq (p : Pass) (s : State) :
    loop_pass p s =
      TIMER0_OVF_vect^[p.irq_sample] (sample_step p.adc (before_sampling p s)) := rfl

theorem before_sampling_sum (p : Pass) (s : State) : (before_sampling p s).sum = s.sum := by
  unfold before_sampling
  rw [iterate_frame TIMER0_OVF_vect State.sum TIMER0_OVF_vect_sum, blink_step_sum,
    iterate_frame TIMER0_OVF_vect State.sum TIMER0_OVF_vect_sum, bored_step_sum]

theorem run_loop_sum_le (inp : Nat → Pass) (s : State) (hs : s.sum ≤ 42)
    (h10 : ∀ k i, i < MAX_SAMPLES → (inp k).adc i < 1024) (n : Nat) :
    (run_loop inp n s).sum ≤ 42 := by
  induction n with
  | zero => exact hs
  | succ m ih =>
    show (loop_pass (inp m) (run_loop inp m s)).sum ≤ 42
    rw [loop_pass_sum]
    have := deviation_sum_le (inp m).adc MAX_SAMPLES (h10 m)
    simp only [MAX_SAMPLES, SCALE] at *
    omega

/-- While the accumulator starts at 42 or less, the additions of the sampling
loop do not wrap. -/
theorem sample_loop_sum_exact (adc : Nat → Nat) (t : State) (j : Nat) (ht : t.sum ≤ 42)
    (hj : j ≤ MAX_SAMPLES) (h10 : ∀ i, i < MAX_SAMPLES → adc i < 1024) :
    (sample_loop adc j t).sum = t.sum + deviation_sum adc j ∧
    t.sum + deviation_sum adc j ≤ 42 + 500 * j := by
  have hd := deviation_sum_le adc j (fun i hi => h10 i (Nat.lt_of_lt_of_le hi hj))
  refine ⟨?_, by omega⟩
  cases j with
  | zero => rfl
  | succ k =>
    rw [sample_loop_sum]
    simp only [MAX_SAMPLES] at hj
    omega

/-- C20. With 10-bit readings: every rectified deviation is at most 500 and
neither subtraction of the rectifier underflows; `sum` is 0 at the start of
the first pass of the main loop and at most 42 at the start of every pass;
after `j` passes of the sampling loop it is the start value plus the first `j`
deviations, at most 4042, so no 16-bit addition wraps. -/
theorem accumulator_stays_small (inp : Nat → Pass) (k0 n : Nat)
    (h10 : ∀ k i, i < MAX_SAMPLES → (inp k).adc i < 1024) :
    (∀ r : Nat, r < 1024 → rectify r ≤ 500) ∧
    (∀ r : Nat, r < 1024 → r > 512 + DELTA →
      512 + DELTA ≤ r ∧ rectify r = r - (512 + DELTA)) ∧
    (∀ r : Nat, r < 1024 → r < 512 - DELTA →
      r ≤ 512 ∧ sub16 512 r = 512 - r ∧ DELTA ≤ 512 - r ∧ rectify r = 512 - r - DELTA) ∧
    (run_loop inp 0 (TIMER0_OVF_vect^[k0] power_on)).sum = 0 ∧
    (run_loop inp n (TIMER0_OVF_vect^[k0] power_on)).sum ≤ 42 ∧
    (∀ j : Nat, j ≤ MAX_SAMPLES →
      (sample_loop (inp n).adc j
          (before_sampling (inp n) (run_loop inp n (TIMER0_OVF_vect^[k0] power_on)))).sum =
        (run_loop inp n (TIMER0_OVF_vect^[k0] power_on)).sum + deviation_sum (inp n).adc j ∧
      (sample_loop (inp n).adc j
          (before_sampling (inp n) (run_loop inp n (TIMER0_OVF_vect^[k0] power_on)))).sum
        ≤ 4042) ∧
    (∀ j : Nat, j < MAX_SAMPLES →
      (sample_loop (inp n).adc j
          (before_sampling (inp n) (run_loop inp n (TIMER0_OVF_vect^[k0] power_on)))).sum
        + rectify ((inp n).adc j) < 65536) ∧
    (run_loop inp (n + 1) (TIMER0_OVF_vect^[k0] power_on)).sum ≤ 42 := by
  have h0 : (TIMER0_OVF_vect^[k0] power_on).sum = 0 :=
    iterate_frame TIMER0_OVF_vect State.sum TIMER0_OVF_vect_sum k0 power_on
  have hle : ∀ m : Nat, (run_loop inp m (TIMER0_OVF_vect^[k0] power_on)).sum ≤ 42 :=
    run_loop_sum_le inp _ (by rw [h0]; omega) h10
  have hb : (before_sampling (inp n) (run_loop inp n (TIMER0_OVF_vect^[k0] power_on))).sum ≤ 42 := by
    rw [before_sampling_sum]
    exact hle n
  refine ⟨rectify_le, ?_, ?_, h0, hle n, ?_, ?_, hle (n + 1)⟩
  · intro r _ hr
    unfold rectify sub16 DELTA at *
    rw [if_pos hr]
    omega
  · intro r _ hr
    unfold rectify sub16 DELTA at *
    rw [if_neg (by omega), if_pos hr]
    omega
  · intro j hj
    have h := sample_loop_sum_exact (inp n).adc _ j hb hj (h10 n)
    rw [before_sampling_sum] at h
    simp only [MAX_SAMPLES] at hj
    refine ⟨h.1, ?_⟩
    rw [h.1]
    omega
  · intro j hj
    have h := sample_loop_sum_exact (inp n).adc _ j hb (Nat.le_of_lt hj) (h10 n)
    have hr := rectify_le _ (h10 n j hj)
    simp only [MAX_SAMPLES] at hj
    rw [h.1]
    omega

/-- Instance of `accumulator_stays_small`: passes in which every reading is 0
(deviation 500), with interrupts in between. -/
theorem accumulator_stays_small_witness :
    (run_loop (fun _ => { adc := fun _ => 0, rnd := 1, irq_bored := 1, irq_blink := 1,
                          irq_sample := 90 }) 3 (TIMER0_OVF_vect^[2] power_on)).sum ≤ 42 :=
  (accumulator_stays_small
    (fun _ => { adc := fun _ => 0, rnd := 1, irq_bored := 1, irq_blink := 1, irq_sample := 90 })
    2 3 (fun _ _ _ => by norm_num)).2.2.2.2.1

end Face
